import Mathlib

/-!
Shallow embedding of the 2048 board engine of `src/pretty_2048.py`
(`Game2048App`), together with proofs of the specification claims about it.

The Python board is a 4×4 grid of `Optional[TileWidget]`; a `TileWidget`
carries an identity and a value. Tiles are only ever created with value 2 or 4
(`add_random_tile`) and merges double a value, so a tile's value is never 0:
we embed the board as a 4×4 grid of natural numbers where `0` stands for an
empty cell (`None`) and a nonzero entry is the value of the tile there.
Tile identities are used by `compute_move` only to compare each tile's start
position against its target position; since distinct board cells hold
distinct tiles, recording `(origin index, target index)` pairs per line is a
faithful rendering of the `movements` dictionary keyed by `tile_id`.
-/

namespace Game2048

/-- `BOARD_SIZE = 4` from `src/pretty_2048.py`. -/
def BOARD_SIZE : Nat := 4

/-- `WIN_TILE = 2048` from `src/pretty_2048.py`. -/
def WIN_TILE : Nat := 2048

/-- A board: rows of cells, `0` = empty cell (`None` in the source). -/
abbrev Board := List (List Nat)

/-- The four move directions accepted by `compute_move`. -/
inductive Dir
  | left
  | right
  | up
  | down
deriving DecidableEq, Fintype

/-- `self.board[r][c]`, with value `0` standing for `None`. Out-of-range
access yields `0`; the source only accesses indices `0..3`. -/
def getCell (b : Board) (r c : Nat) : Nat :=
  (b.getD r []).getD c 0

/-- `self.board[r][c] = v`. -/
def setCell (b : Board) (r c : Nat) (v : Nat) : Board :=
  b.set r ((b.getD r []).set c v)

/-- `tiles_line = [self.board[r][c] for r, c in coords if self.board[r][c] is
not None]`, keeping each surviving tile's index within the line (the index of
its coordinate in `coords`), which is how `start_positions` relates a tile to
its pre-move cell. `i` is the index of the head of the list within the line. -/
def lineTiles : List Nat → Nat → List (Nat × Nat)
  | [], _ => []
  | v :: rest, i =>
    if v = 0 then lineTiles rest (i + 1)
    else (i, v) :: lineTiles rest (i + 1)

/-- The `while idx < len(tiles_line)` loop of `compute_move`: walk the
compacted tiles front-to-back; when the next tile's value equals the current
one, the pair merges into one tile of doubled value at slot `t` (both tiles
recording target slot `t`, the doubled value added to the score gain) and the
consumed neighbour is skipped (`idx += 2`), so a merged tile is never merged
again in the same move; otherwise the current tile is placed at slot `t`
alone. Returns `(placed values, movements as (origin index, target slot),
number of merges, score gain)`. -/
def mergePass : List (Nat × Nat) → Nat → List Nat × List (Nat × Nat) × Nat × Nat
  | [], _ => ([], [], 0, 0)
  | [pv], t => ([pv.2], [(pv.1, t)], 0, 0)
  | pv :: qw :: rest, t =>
    if qw.2 = pv.2 then
      let r := mergePass rest (t + 1)
      (pv.2 * 2 :: r.1, (pv.1, t) :: (qw.1, t) :: r.2.1, r.2.2.1 + 1, r.2.2.2 + pv.2 * 2)
    else
      let r := mergePass (qw :: rest) (t + 1)
      (pv.2 :: r.1, (pv.1, t) :: r.2.1, r.2.2.1, r.2.2.2)

/-- The `new_line` written back over the line's coordinates: the merged
values at slots `0..`, the remaining slots `None` (`new_line` is initialised
to `[None] * BOARD_SIZE` and the trailing slots are re-set to `None`). -/
def newLine (l : List Nat) : List Nat :=
  (mergePass (lineTiles l 0) 0).1 ++
    List.replicate (l.length - (mergePass (lineTiles l 0) 0).1.length) 0

/-- The contribution of one line to the `moved` flag: some tile of the line
has `start != (target_row, target_col)` in the `movements` dictionary, or a
merge was recorded for the line. The source computes the flag once over all
lines; OR-ing per-line contributions is the same Boolean. -/
def lineMoved (l : List Nat) : Bool :=
  ((mergePass (lineTiles l 0) 0).2.1.any fun pt => decide (pt.1 ≠ pt.2)) ||
    decide ((mergePass (lineTiles l 0) 0).2.2.1 ≠ 0)

/-- The contribution of one line to `score_gain`. -/
def lineScore (l : List Nat) : Nat :=
  (mergePass (lineTiles l 0) 0).2.2.2

/-- Apply the per-line transformation to every line of a list of lines. -/
def moveRowsBoard (b : Board) : Board := b.map newLine

/-- The `moved` flag over a list of lines. -/
def moveRowsMoved (b : Board) : Bool := b.any lineMoved

/-- The `score_gain` over a list of lines. -/
def moveRowsScore (b : Board) : Nat := (b.map lineScore).sum

/-- Reverse every row. `line_iterator` reads the line for `right` as the row
with columns `reversed(range(BOARD_SIZE))`, and `new_line[i]` is written back
to those same reversed coordinates. -/
def reverseRows (b : Board) : Board := b.map List.reverse

/-- The columns of the (4×4) board as rows. `line_iterator` reads the line
for `up` as a column top-to-bottom, and `new_line` is written back down the
same column. -/
def transpose4 (b : Board) : Board :=
  [[getCell b 0 0, getCell b 1 0, getCell b 2 0, getCell b 3 0],
   [getCell b 0 1, getCell b 1 1, getCell b 2 1, getCell b 3 1],
   [getCell b 0 2, getCell b 1 2, getCell b 2 2, getCell b 3 2],
   [getCell b 0 3, getCell b 1 3, getCell b 2 3, getCell b 3 3]]

/-- `Game2048App.compute_move`, returning `(resulting board, moved,
score_gain)`. Per `line_iterator`: `left` processes each row left-to-right;
`right` each row reversed (and writes back along the reversed coordinates);
`up` each column top-to-bottom; `down` each column bottom-to-top. -/
def computeMove : Dir → Board → Board × Bool × Nat
  | .left, b => (moveRowsBoard b, moveRowsMoved b, moveRowsScore b)
  | .right, b =>
    (reverseRows (moveRowsBoard (reverseRows b)),
     moveRowsMoved (reverseRows b), moveRowsScore (reverseRows b))
  | .up, b =>
    (transpose4 (moveRowsBoard (transpose4 b)),
     moveRowsMoved (transpose4 b), moveRowsScore (transpose4 b))
  | .down, b =>
    (transpose4 (reverseRows (moveRowsBoard (reverseRows (transpose4 b)))),
     moveRowsMoved (reverseRows (transpose4 b)),
     moveRowsScore (reverseRows (transpose4 b)))

/-- The body of the double loop of `Game2048App.moves_available` at `(r, c)`:
the cell is empty, or the `(0, 1)` / `(1, 0)` neighbour is in bounds and is
empty or holds the same value. -/
def cellCanMove (b : Board) (r c : Nat) : Bool :=
  decide (getCell b r c = 0) ||
    (decide (r < 4) && decide (c + 1 < 4) &&
      (decide (getCell b r (c + 1) = 0) || decide (getCell b r (c + 1) = getCell b r c))) ||
    (decide (r + 1 < 4) && decide (c < 4) &&
      (decide (getCell b (r + 1) c = 0) || decide (getCell b (r + 1) c = getCell b r c)))

/-- `Game2048App.moves_available`. -/
def movesAvailable (b : Board) : Bool :=
  (List.range 4).any fun r => (List.range 4).any fun c => cellCanMove b r c

/-- `empties = [(r, c) for r in range(BOARD_SIZE) for c in range(BOARD_SIZE)
if self.board[r][c] is None]` from `Game2048App.add_random_tile`. -/
def emptyCells (b : Board) : List (Nat × Nat) :=
  ((List.range 4).map fun r =>
    ((List.range 4).map fun c => (r, c)).filter fun rc =>
      decide (getCell b rc.1 rc.2 = 0)).flatten

/-- `Game2048App.add_random_tile`. The random draws are injected: `k` selects
the cell among `empties` (`random.choice(empties)`) and `four` is the event
`random.random() < 0.1` choosing value 4 over value 2. The Python method
returns `None` and signals "board full" by returning early before placing
anything; the Boolean component records whether a tile was placed, which is
the return contract the specification names `insert_random_tile`. -/
def addRandomTile (b : Board) (k : Nat) (four : Bool) : Bool × Board :=
  if emptyCells b = [] then (false, b)
  else
    (true, setCell b ((emptyCells b).getD (k % (emptyCells b).length) (0, 0)).1
      ((emptyCells b).getD (k % (emptyCells b).length) (0, 0)).2 (if four then 4 else 2))

/-- The session state mutated by `Game2048App`: the board, `self.score` and
`self.best_score`. -/
structure Session where
  board : Board
  score : Nat
  best : Nat
deriving DecidableEq

/-- One accepted input processed to completion: `Game2048App.queue_move`
followed (when `moved`) by the end of `perform_animation_step`, which inserts
the new random tile. `compute_move` always writes the rearranged lines back
into `self.board` (even when nothing moved), adds `score_gain` to the score
and raises the best score only under `if moved:`, and `queue_move` returns
before any animation (hence before `add_random_tile`) when `moved` is false.
The random draws are an injected supply, consumed only when a tile is
inserted. -/
def queueMove (d : Dir) (s : Session) (supply : List (Nat × Bool)) :
    Session × List (Nat × Bool) :=
  if (computeMove d s.board).2.1 then
    let sc := s.score + (computeMove d s.board).2.2
    let r := supply.headD (0, false)
    ({ board := (addRandomTile (computeMove d s.board).1 r.1 r.2).2,
       score := sc,
       best := if s.best < sc then sc else s.best }, supply.tail)
  else
    ({ s with board := (computeMove d s.board).1 }, supply)

/-- A sequence of accepted inputs processed in order. -/
def runSession (s : Session) : List Dir → List (Nat × Bool) → Session
  | [], _ => s
  | d :: ds, supply =>
    runSession (queueMove d s supply).1 ds (queueMove d s supply).2

/-- `Game2048App.reset_game`: clear the board, reset the score to 0 (the best
score is kept), then insert two random tiles. -/
def resetGame (best : Nat) (r1 r2 : Nat × Bool) : Session :=
  { board := (addRandomTile (addRandomTile
      (List.replicate 4 (List.replicate 4 0)) r1.1 r1.2).2 r2.1 r2.2).2,
    score := 0,
    best := best }

/-- `any(tile.value >= WIN_TILE for tile in self.tiles.values())`: the win
condition tested by `compute_move` and `perform_animation_step`. The tiles
dictionary holds exactly the tiles on the board. -/
def isWon (b : Board) : Bool :=
  b.any fun row => row.any fun v => decide (WIN_TILE ≤ v)

/-- The sum of all tile values on the board. -/
def boardSum (b : Board) : Nat := (b.map List.sum).sum

/-- A legal tile value: at least 2 and a power of 2. -/
def validVal (v : Nat) : Prop := 2 ≤ v ∧ ∃ k, v = 2 ^ k

/-- Every nonempty cell of the board holds a legal tile value. -/
def validBoard (b : Board) : Prop :=
  ∀ row ∈ b, ∀ v ∈ row, v ≠ 0 → validVal v

/-- The board with no tiles, as built by `reset_game` before seeding. -/
def emptyBoard : Board := List.replicate 4 (List.replicate 4 0)

example : computeMove .left [[0, 2, 0, 2], [0, 0, 0, 0], [0, 0, 0, 0], [0, 0, 0, 0]] =
    ([[4, 0, 0, 0], [0, 0, 0, 0], [0, 0, 0, 0], [0, 0, 0, 0]], true, 4) := by decide

example : computeMove .left [[2, 4, 0, 0], [0, 0, 0, 0], [0, 0, 0, 0], [0, 0, 0, 0]] =
    ([[2, 4, 0, 0], [0, 0, 0, 0], [0, 0, 0, 0], [0, 0, 0, 0]], false, 0) := by decide

example : computeMove .right [[2, 2, 0, 0], [0, 0, 0, 0], [0, 0, 0, 0], [0, 0, 0, 0]] =
    ([[0, 0, 0, 4], [0, 0, 0, 0], [0, 0, 0, 0], [0, 0, 0, 0]], true, 4) := by decide

example : computeMove .down [[2, 0, 0, 0], [0, 0, 0, 0], [2, 0, 0, 0], [4, 0, 0, 0]] =
    ([[0, 0, 0, 0], [0, 0, 0, 0], [4, 0, 0, 0], [4, 0, 0, 0]], true, 4) := by decide

example : movesAvailable emptyBoard = true := by decide

example : (computeMove .left emptyBoard).2.1 = false := by decide

example : addRandomTile [[2, 2, 2, 2], [2, 2, 2, 2], [2, 2, 2, 2], [2, 2, 2, 2]] 0 false =
    (false, [[2, 2, 2, 2], [2, 2, 2, 2], [2, 2, 2, 2], [2, 2, 2, 2]]) := by decide

/-! ### Per-line lemmas -/

/-- The per-line `moved` contribution is true exactly when the written-back
line differs from the original line. -/
lemma lineMoved_iff (a b c d : Nat) :
    lineMoved [a, b, c, d] = true ↔ newLine [a, b, c, d] ≠ [a, b, c, d] := by
  by_cases ha : a = 0 <;> by_cases hb : b = 0 <;> by_cases hc : c = 0 <;> by_cases hd : d = 0 <;>
    simp [lineMoved, newLine, lineTiles, mergePass, ha, hb, hc, hd] <;>
    split_ifs <;> simp_all [-List.any_eq_true] <;>
    first
      | omega
      | exact ⟨1, 0, by omega, by omega⟩
      | exact ⟨2, 0, by omega, by omega⟩
      | exact ⟨3, 0, by omega, by omega⟩
      | exact ⟨2, 1, by omega, by omega⟩
      | exact ⟨3, 1, by omega, by omega⟩
      | exact ⟨3, 2, by omega, by omega⟩

lemma lineTiles_length_le (l : List Nat) : ∀ i, (lineTiles l i).length ≤ l.length := by
  induction l with
  | nil => simp [lineTiles]
  | cons v rest ih =>
    intro i
    rw [lineTiles]
    split_ifs <;> simp <;> exact Nat.le_trans (ih _) (by omega)

lemma mergePass_fst_length_le :
    ∀ (tl : List (Nat × Nat)) (t : Nat), (mergePass tl t).1.length ≤ tl.length
  | [], _ => by simp [mergePass]
  | [pv], _ => by simp [mergePass]
  | pv :: qw :: rest, t => by
    have h1 := mergePass_fst_length_le rest (t + 1)
    have h2 := mergePass_fst_length_le (qw :: rest) (t + 1)
    rw [mergePass]
    split_ifs <;> simp_all <;> omega

lemma newLine_length (l : List Nat) : (newLine l).length = l.length := by
  have h1 := mergePass_fst_length_le (lineTiles l 0) 0
  have h2 := lineTiles_length_le l 0
  simp [newLine]
  omega

lemma exists_four {α : Type} (l : List α) (h : l.length = 4) :
    ∃ a b c d, l = [a, b, c, d] := by
  match l, h with
  | [a, b, c, d], _ => exact ⟨a, b, c, d, rfl⟩

lemma mergePass_sum :
    ∀ (tl : List (Nat × Nat)) (t : Nat), (mergePass tl t).1.sum = (tl.map Prod.snd).sum
  | [], _ => by simp [mergePass]
  | [pv], _ => by simp [mergePass]
  | pv :: qw :: rest, t => by
    have h1 := mergePass_sum rest (t + 1)
    have h2 := mergePass_sum (qw :: rest) (t + 1)
    rw [mergePass]
    split_ifs <;> simp_all <;> omega

lemma lineTiles_sum (l : List Nat) : ∀ i, ((lineTiles l i).map Prod.snd).sum = l.sum := by
  induction l with
  | nil => simp [lineTiles]
  | cons v rest ih =>
    intro i
    rw [lineTiles]
    split_ifs with hv <;> simp [ih, hv]

/-- Merging a line never changes the sum of its tile values. -/
lemma newLine_sum (l : List Nat) : (newLine l).sum = l.sum := by
  simp [newLine, mergePass_sum, lineTiles_sum]

lemma mergePass_fst_mem :
    ∀ (tl : List (Nat × Nat)) (t : Nat), ∀ y ∈ (mergePass tl t).1,
      y ∈ tl.map Prod.snd ∨ ∃ x ∈ tl.map Prod.snd, y = x * 2
  | [], _ => by simp [mergePass]
  | [pv], _ => by simp [mergePass]
  | pv :: qw :: rest, t => by
    intro y hy
    rw [mergePass] at hy
    split_ifs at hy with hvw
    · simp only [List.mem_cons] at hy
      rcases hy with rfl | hy
      · exact Or.inr ⟨pv.2, by simp, rfl⟩
      · rcases mergePass_fst_mem rest (t + 1) y hy with h | ⟨x, hx, rfl⟩
        · exact Or.inl (by simp_all)
        · exact Or.inr ⟨x, by simp_all, rfl⟩
    · simp only [List.mem_cons] at hy
      rcases hy with rfl | hy
      · exact Or.inl (by simp)
      · rcases mergePass_fst_mem (qw :: rest) (t + 1) y hy with h | ⟨x, hx, rfl⟩
        · exact Or.inl (by simp_all)
        · exact Or.inr ⟨x, by simp_all, rfl⟩

lemma lineTiles_snd_mem (l : List Nat) :
    ∀ i, ∀ x ∈ (lineTiles l i).map Prod.snd, x ∈ l ∧ x ≠ 0 := by
  induction l with
  | nil => simp [lineTiles]
  | cons v rest ih =>
    intro i x hx
    rw [lineTiles] at hx
    split_ifs at hx with hv
    · have := ih (i + 1) x hx
      exact ⟨by simp [this.1], this.2⟩
    · simp only [List.map_cons, List.mem_cons] at hx
      rcases hx with rfl | hx
      · exact ⟨by simp, hv⟩
      · have := ih (i + 1) x hx
        exact ⟨by simp [this.1], this.2⟩

lemma mergePass_exists_ge :
    ∀ (tl : List (Nat × Nat)) (t : Nat), ∀ pv ∈ tl, ∃ y ∈ (mergePass tl t).1, pv.2 ≤ y
  | [], _ => by simp [mergePass]
  | [pv], _ => by simp [mergePass]
  | pv :: qw :: rest, t => by
    intro uv huv
    rw [mergePass]
    split_ifs with hvw
    · simp only [List.mem_cons] at huv
      rcases huv with rfl | rfl | huv
      · exact ⟨uv.2 * 2, by simp, by omega⟩
      · exact ⟨pv.2 * 2, by simp, by omega⟩
      · obtain ⟨y, hy, hyge⟩ := mergePass_exists_ge rest (t + 1) uv huv
        exact ⟨y, by simp [hy], hyge⟩
    · simp only [List.mem_cons] at huv
      rcases huv with rfl | huv
      · exact ⟨uv.2, by simp, le_refl _⟩
      · obtain ⟨y, hy, hyge⟩ := mergePass_exists_ge (qw :: rest) (t + 1) uv (List.mem_cons.2 huv)
        exact ⟨y, by simp [hy], hyge⟩

lemma lineTiles_mem_of (l : List Nat) :
    ∀ i, ∀ x ∈ l, x ≠ 0 → ∃ j, (j, x) ∈ lineTiles l i := by
  induction l with
  | nil => simp
  | cons v rest ih =>
    intro i x hx hx0
    rw [lineTiles]
    rcases List.mem_cons.1 hx with rfl | hx
    · rw [if_neg hx0]
      exact ⟨i, by simp⟩
    · obtain ⟨j, hj⟩ := ih (i + 1) x hx hx0
      split_ifs
      · exact ⟨j, hj⟩
      · exact ⟨j, by simp [hj]⟩

/-- A tile at or above the winning value survives the merge of its line (it
either stays or doubles). -/
lemma newLine_won (l : List Nat) (h : ∃ x ∈ l, 2048 ≤ x) :
    ∃ y ∈ newLine l, 2048 ≤ y := by
  obtain ⟨x, hx, hxw⟩ := h
  obtain ⟨j, hj⟩ := lineTiles_mem_of l 0 x hx (by omega)
  obtain ⟨y, hy, hyge⟩ := mergePass_exists_ge (lineTiles l 0) 0 (j, x) hj
  exact ⟨y, by simp [newLine, hy], by omega⟩

/-- Every nonzero value in a merged line is a legal tile value if all tile
values of the original line were (a merge doubles a power of two). -/
lemma newLine_valid (l : List Nat) (h : ∀ x ∈ l, x ≠ 0 → 2 ≤ x ∧ ∃ k, x = 2 ^ k) :
    ∀ y ∈ newLine l, y ≠ 0 → 2 ≤ y ∧ ∃ k, y = 2 ^ k := by
  intro y hy hy0
  simp only [newLine, List.mem_append, List.mem_replicate] at hy
  rcases hy with hy | hy
  · rcases mergePass_fst_mem (lineTiles l 0) 0 y hy with hm | ⟨x, hm, rfl⟩
    · obtain ⟨hxl, hx0⟩ := lineTiles_snd_mem l 0 y hm
      exact h y hxl hx0
    · obtain ⟨hxl, hx0⟩ := lineTiles_snd_mem l 0 x hm
      obtain ⟨hx2, k, rfl⟩ := h x hxl hx0
      exact ⟨by omega, k + 1, by ring⟩
  · omega

/-! ### Board-level lemmas -/

lemma transpose4_explicit (a1 a2 a3 a4 b1 b2 b3 b4 c1 c2 c3 c4 d1 d2 d3 d4 : Nat) :
    transpose4 [[a1,a2,a3,a4],[b1,b2,b3,b4],[c1,c2,c3,c4],[d1,d2,d3,d4]] =
      [[a1,b1,c1,d1],[a2,b2,c2,d2],[a3,b3,c3,d3],[a4,b4,c4,d4]] := rfl

lemma moved_iff_left (a1 a2 a3 a4 b1 b2 b3 b4 c1 c2 c3 c4 d1 d2 d3 d4 : Nat) :
    moveRowsMoved [[a1,a2,a3,a4],[b1,b2,b3,b4],[c1,c2,c3,c4],[d1,d2,d3,d4]] = true ↔
      moveRowsBoard [[a1,a2,a3,a4],[b1,b2,b3,b4],[c1,c2,c3,c4],[d1,d2,d3,d4]] ≠
        [[a1,a2,a3,a4],[b1,b2,b3,b4],[c1,c2,c3,c4],[d1,d2,d3,d4]] := by
  simp only [moveRowsMoved, moveRowsBoard, List.map_cons, List.map_nil, List.any_cons,
    List.any_nil, Bool.or_eq_true, Bool.false_eq_true, or_false, lineMoved_iff, ne_eq,
    List.cons.injEq, and_true, not_and]
  tauto

lemma moved_iff_right (a1 a2 a3 a4 b1 b2 b3 b4 c1 c2 c3 c4 d1 d2 d3 d4 : Nat) :
    moveRowsMoved (reverseRows [[a1,a2,a3,a4],[b1,b2,b3,b4],[c1,c2,c3,c4],[d1,d2,d3,d4]]) = true ↔
      reverseRows (moveRowsBoard (reverseRows
          [[a1,a2,a3,a4],[b1,b2,b3,b4],[c1,c2,c3,c4],[d1,d2,d3,d4]])) ≠
        [[a1,a2,a3,a4],[b1,b2,b3,b4],[c1,c2,c3,c4],[d1,d2,d3,d4]] := by
  simp only [reverseRows, moveRowsMoved, moveRowsBoard, List.map_cons, List.map_nil,
    List.any_cons, List.any_nil, Bool.or_eq_true, Bool.false_eq_true, or_false,
    List.reverse_cons, List.reverse_nil, List.nil_append, List.cons_append,
    lineMoved_iff, ne_eq, List.cons.injEq, and_true, not_and, List.reverse_eq_iff]
  tauto

lemma moved_iff_up (a1 a2 a3 a4 b1 b2 b3 b4 c1 c2 c3 c4 d1 d2 d3 d4 : Nat) :
    moveRowsMoved (transpose4 [[a1,a2,a3,a4],[b1,b2,b3,b4],[c1,c2,c3,c4],[d1,d2,d3,d4]]) = true ↔
      transpose4 (moveRowsBoard (transpose4
          [[a1,a2,a3,a4],[b1,b2,b3,b4],[c1,c2,c3,c4],[d1,d2,d3,d4]])) ≠
        [[a1,a2,a3,a4],[b1,b2,b3,b4],[c1,c2,c3,c4],[d1,d2,d3,d4]] := by
  rw [transpose4_explicit]
  obtain ⟨p1, p2, p3, p4, hp⟩ := exists_four (newLine [a1,b1,c1,d1]) (newLine_length _)
  obtain ⟨q1, q2, q3, q4, hq⟩ := exists_four (newLine [a2,b2,c2,d2]) (newLine_length _)
  obtain ⟨r1, r2, r3, r4, hr⟩ := exists_four (newLine [a3,b3,c3,d3]) (newLine_length _)
  obtain ⟨s1, s2, s3, s4, hs⟩ := exists_four (newLine [a4,b4,c4,d4]) (newLine_length _)
  simp only [moveRowsMoved, moveRowsBoard, List.map_cons, List.map_nil, List.any_cons,
    List.any_nil, Bool.or_eq_true, Bool.false_eq_true, or_false, lineMoved_iff, hp, hq, hr, hs,
    transpose4_explicit, ne_eq, List.cons.injEq, and_true, not_and]
  tauto

lemma moved_iff_down (a1 a2 a3 a4 b1 b2 b3 b4 c1 c2 c3 c4 d1 d2 d3 d4 : Nat) :
    moveRowsMoved (reverseRows (transpose4
        [[a1,a2,a3,a4],[b1,b2,b3,b4],[c1,c2,c3,c4],[d1,d2,d3,d4]])) = true ↔
      transpose4 (reverseRows (moveRowsBoard (reverseRows (transpose4
          [[a1,a2,a3,a4],[b1,b2,b3,b4],[c1,c2,c3,c4],[d1,d2,d3,d4]])))) ≠
        [[a1,a2,a3,a4],[b1,b2,b3,b4],[c1,c2,c3,c4],[d1,d2,d3,d4]] := by
  rw [transpose4_explicit]
  obtain ⟨p1, p2, p3, p4, hp⟩ := exists_four (newLine [d1,c1,b1,a1]) (newLine_length _)
  obtain ⟨q1, q2, q3, q4, hq⟩ := exists_four (newLine [d2,c2,b2,a2]) (newLine_length _)
  obtain ⟨r1, r2, r3, r4, hr⟩ := exists_four (newLine [d3,c3,b3,a3]) (newLine_length _)
  obtain ⟨s1, s2, s3, s4, hs⟩ := exists_four (newLine [d4,c4,b4,a4]) (newLine_length _)
  simp only [reverseRows, moveRowsMoved, moveRowsBoard, List.map_cons, List.map_nil,
    List.any_cons, List.any_nil, Bool.or_eq_true, Bool.false_eq_true, or_false,
    List.reverse_cons, List.reverse_nil, List.nil_append, List.cons_append,
    lineMoved_iff, hp, hq, hr, hs, transpose4_explicit, ne_eq, List.cons.injEq,
    and_true, not_and]
  tauto

/-- Over any 4×4 board and any direction, the `moved` flag computed from the
`movements` start/target comparison together with the merge list is true
exactly when the resulting grid differs from the original grid. -/
lemma computeMove_moved_iff (a1 a2 a3 a4 b1 b2 b3 b4 c1 c2 c3 c4 d1 d2 d3 d4 : Nat) (d : Dir) :
    (computeMove d [[a1,a2,a3,a4],[b1,b2,b3,b4],[c1,c2,c3,c4],[d1,d2,d3,d4]]).2.1 = true ↔
      (computeMove d [[a1,a2,a3,a4],[b1,b2,b3,b4],[c1,c2,c3,c4],[d1,d2,d3,d4]]).1 ≠
        [[a1,a2,a3,a4],[b1,b2,b3,b4],[c1,c2,c3,c4],[d1,d2,d3,d4]] := by
  cases d
  · exact moved_iff_left a1 a2 a3 a4 b1 b2 b3 b4 c1 c2 c3 c4 d1 d2 d3 d4
  · exact moved_iff_right a1 a2 a3 a4 b1 b2 b3 b4 c1 c2 c3 c4 d1 d2 d3 d4
  · exact moved_iff_up a1 a2 a3 a4 b1 b2 b3 b4 c1 c2 c3 c4 d1 d2 d3 d4
  · exact moved_iff_down a1 a2 a3 a4 b1 b2 b3 b4 c1 c2 c3 c4 d1 d2 d3 d4

/-! ### Claim theorems -/

/-- C1: for every board and every direction, the `moved` flag returned by
`compute_move` (some tile's start position differs from its target position,
or at least one merge occurred) is true if and only if the final grid of
values differs from the grid before the move in at least one cell. -/
theorem moved_flag_iff_grid_changed
    (a1 a2 a3 a4 b1 b2 b3 b4 c1 c2 c3 c4 d1 d2 d3 d4 : Nat) (d : Dir) :
    (computeMove d [[a1,a2,a3,a4],[b1,b2,b3,b4],[c1,c2,c3,c4],[d1,d2,d3,d4]]).2.1 = true ↔
      (computeMove d [[a1,a2,a3,a4],[b1,b2,b3,b4],[c1,c2,c3,c4],[d1,d2,d3,d4]]).1 ≠
        [[a1,a2,a3,a4],[b1,b2,b3,b4],[c1,c2,c3,c4],[d1,d2,d3,d4]] :=
  computeMove_moved_iff a1 a2 a3 a4 b1 b2 b3 b4 c1 c2 c3 c4 d1 d2 d3 d4 d

/-! ### `moves_available` on explicit boards -/

lemma getCell_00 (a1 a2 a3 a4 b1 b2 b3 b4 c1 c2 c3 c4 d1 d2 d3 d4 : Nat) :
    getCell [[a1,a2,a3,a4],[b1,b2,b3,b4],[c1,c2,c3,c4],[d1,d2,d3,d4]] 0 0 = a1 := rfl

lemma getCell_01 (a1 a2 a3 a4 b1 b2 b3 b4 c1 c2 c3 c4 d1 d2 d3 d4 : Nat) :
    getCell [[a1,a2,a3,a4],[b1,b2,b3,b4],[c1,c2,c3,c4],[d1,d2,d3,d4]] 0 1 = a2 := rfl

lemma getCell_02 (a1 a2 a3 a4 b1 b2 b3 b4 c1 c2 c3 c4 d1 d2 d3 d4 : Nat) :
    getCell [[a1,a2,a3,a4],[b1,b2,b3,b4],[c1,c2,c3,c4],[d1,d2,d3,d4]] 0 2 = a3 := rfl

lemma getCell_03 (a1 a2 a3 a4 b1 b2 b3 b4 c1 c2 c3 c4 d1 d2 d3 d4 : Nat) :
    getCell [[a1,a2,a3,a4],[b1,b2,b3,b4],[c1,c2,c3,c4],[d1,d2,d3,d4]] 0 3 = a4 := rfl

lemma getCell_10 (a1 a2 a3 a4 b1 b2 b3 b4 c1 c2 c3 c4 d1 d2 d3 d4 : Nat) :
    getCell [[a1,a2,a3,a4],[b1,b2,b3,b4],[c1,c2,c3,c4],[d1,d2,d3,d4]] 1 0 = b1 := rfl

lemma getCell_11 (a1 a2 a3 a4 b1 b2 b3 b4 c1 c2 c3 c4 d1 d2 d3 d4 : Nat) :
    getCell [[a1,a2,a3,a4],[b1,b2,b3,b4],[c1,c2,c3,c4],[d1,d2,d3,d4]] 1 1 = b2 := rfl

lemma getCell_12 (a1 a2 a3 a4 b1 b2 b3 b4 c1 c2 c3 c4 d1 d2 d3 d4 : Nat) :
    getCell [[a1,a2,a3,a4],[b1,b2,b3,b4],[c1,c2,c3,c4],[d1,d2,d3,d4]] 1 2 = b3 := rfl

lemma getCell_13 (a1 a2 a3 a4 b1 b2 b3 b4 c1 c2 c3 c4 d1 d2 d3 d4 : Nat) :
    getCell [[a1,a2,a3,a4],[b1,b2,b3,b4],[c1,c2,c3,c4],[d1,d2,d3,d4]] 1 3 = b4 := rfl

lemma getCell_20 (a1 a2 a3 a4 b1 b2 b3 b4 c1 c2 c3 c4 d1 d2 d3 d4 : Nat) :
    getCell [[a1,a2,a3,a4],[b1,b2,b3,b4],[c1,c2,c3,c4],[d1,d2,d3,d4]] 2 0 = c1 := rfl

lemma getCell_21 (a1 a2 a3 a4 b1 b2 b3 b4 c1 c2 c3 c4 d1 d2 d3 d4 : Nat) :
    getCell [[a1,a2,a3,a4],[b1,b2,b3,b4],[c1,c2,c3,c4],[d1,d2,d3,d4]] 2 1 = c2 := rfl

lemma getCell_22 (a1 a2 a3 a4 b1 b2 b3 b4 c1 c2 c3 c4 d1 d2 d3 d4 : Nat) :
    getCell [[a1,a2,a3,a4],[b1,b2,b3,b4],[c1,c2,c3,c4],[d1,d2,d3,d4]] 2 2 = c3 := rfl

lemma getCell_23 (a1 a2 a3 a4 b1 b2 b3 b4 c1 c2 c3 c4 d1 d2 d3 d4 : Nat) :
    getCell [[a1,a2,a3,a4],[b1,b2,b3,b4],[c1,c2,c3,c4],[d1,d2,d3,d4]] 2 3 = c4 := rfl

lemma getCell_30 (a1 a2 a3 a4 b1 b2 b3 b4 c1 c2 c3 c4 d1 d2 d3 d4 : Nat) :
    getCell [[a1,a2,a3,a4],[b1,b2,b3,b4],[c1,c2,c3,c4],[d1,d2,d3,d4]] 3 0 = d1 := rfl

lemma getCell_31 (a1 a2 a3 a4 b1 b2 b3 b4 c1 c2 c3 c4 d1 d2 d3 d4 : Nat) :
    getCell [[a1,a2,a3,a4],[b1,b2,b3,b4],[c1,c2,c3,c4],[d1,d2,d3,d4]] 3 1 = d2 := rfl

lemma getCell_32 (a1 a2 a3 a4 b1 b2 b3 b4 c1 c2 c3 c4 d1 d2 d3 d4 : Nat) :
    getCell [[a1,a2,a3,a4],[b1,b2,b3,b4],[c1,c2,c3,c4],[d1,d2,d3,d4]] 3 2 = d3 := rfl

lemma getCell_33 (a1 a2 a3 a4 b1 b2 b3 b4 c1 c2 c3 c4 d1 d2 d3 d4 : Nat) :
    getCell [[a1,a2,a3,a4],[b1,b2,b3,b4],[c1,c2,c3,c4],[d1,d2,d3,d4]] 3 3 = d4 := rfl

lemma movesAvailable_of_zero
    (a1 a2 a3 a4 b1 b2 b3 b4 c1 c2 c3 c4 d1 d2 d3 d4 : Nat)
    (h : a1 = 0 ∨ a2 = 0 ∨ a3 = 0 ∨ a4 = 0 ∨ b1 = 0 ∨ b2 = 0 ∨ b3 = 0 ∨ b4 = 0 ∨
         c1 = 0 ∨ c2 = 0 ∨ c3 = 0 ∨ c4 = 0 ∨ d1 = 0 ∨ d2 = 0 ∨ d3 = 0 ∨ d4 = 0) :
    movesAvailable [[a1,a2,a3,a4],[b1,b2,b3,b4],[c1,c2,c3,c4],[d1,d2,d3,d4]] = true := by
  rw [movesAvailable]
  rcases h with h|h|h|h|h|h|h|h|h|h|h|h|h|h|h|h
  · exact List.any_eq_true.2 ⟨0, by decide, List.any_eq_true.2 ⟨0, by decide,
      by simp [cellCanMove, getCell_00, h]⟩⟩
  · exact List.any_eq_true.2 ⟨0, by decide, List.any_eq_true.2 ⟨1, by decide,
      by simp [cellCanMove, getCell_01, h]⟩⟩
  · exact List.any_eq_true.2 ⟨0, by decide, List.any_eq_true.2 ⟨2, by decide,
      by simp [cellCanMove, getCell_02, h]⟩⟩
  · exact List.any_eq_true.2 ⟨0, by decide, List.any_eq_true.2 ⟨3, by decide,
      by simp [cellCanMove, getCell_03, h]⟩⟩
  · exact List.any_eq_true.2 ⟨1, by decide, List.any_eq_true.2 ⟨0, by decide,
      by simp [cellCanMove, getCell_10, h]⟩⟩
  · exact List.any_eq_true.2 ⟨1, by decide, List.any_eq_true.2 ⟨1, by decide,
      by simp [cellCanMove, getCell_11, h]⟩⟩
  · exact List.any_eq_true.2 ⟨1, by decide, List.any_eq_true.2 ⟨2, by decide,
      by simp [cellCanMove, getCell_12, h]⟩⟩
  · exact List.any_eq_true.2 ⟨1, by decide, List.any_eq_true.2 ⟨3, by decide,
      by simp [cellCanMove, getCell_13, h]⟩⟩
  · exact List.any_eq_true.2 ⟨2, by decide, List.any_eq_true.2 ⟨0, by decide,
      by simp [cellCanMove, getCell_20, h]⟩⟩
  · exact List.any_eq_true.2 ⟨2, by decide, List.any_eq_true.2 ⟨1, by decide,
      by simp [cellCanMove, getCell_21, h]⟩⟩
  · exact List.any_eq_true.2 ⟨2, by decide, List.any_eq_true.2 ⟨2, by decide,
      by simp [cellCanMove, getCell_22, h]⟩⟩
  · exact List.any_eq_true.2 ⟨2, by decide, List.any_eq_true.2 ⟨3, by decide,
      by simp [cellCanMove, getCell_23, h]⟩⟩
  · exact List.any_eq_true.2 ⟨3, by decide, List.any_eq_true.2 ⟨0, by decide,
      by simp [cellCanMove, getCell_30, h]⟩⟩
  · exact List.any_eq_true.2 ⟨3, by decide, List.any_eq_true.2 ⟨1, by decide,
      by simp [cellCanMove, getCell_31, h]⟩⟩
  · exact List.any_eq_true.2 ⟨3, by decide, List.any_eq_true.2 ⟨2, by decide,
      by simp [cellCanMove, getCell_32, h]⟩⟩
  · exact List.any_eq_true.2 ⟨3, by decide, List.any_eq_true.2 ⟨3, by decide,
      by simp [cellCanMove, getCell_33, h]⟩⟩

/-- C10: a board with at least one empty cell — including the completely
empty board — makes `moves_available` return true: the scan returns true at
the first `None` cell, without consulting any direction's move outcome. -/
theorem moves_available_of_empty_cell
    (a1 a2 a3 a4 b1 b2 b3 b4 c1 c2 c3 c4 d1 d2 d3 d4 : Nat)
    (h : a1 = 0 ∨ a2 = 0 ∨ a3 = 0 ∨ a4 = 0 ∨ b1 = 0 ∨ b2 = 0 ∨ b3 = 0 ∨ b4 = 0 ∨
         c1 = 0 ∨ c2 = 0 ∨ c3 = 0 ∨ c4 = 0 ∨ d1 = 0 ∨ d2 = 0 ∨ d3 = 0 ∨ d4 = 0) :
    movesAvailable [[a1,a2,a3,a4],[b1,b2,b3,b4],[c1,c2,c3,c4],[d1,d2,d3,d4]] = true :=
  movesAvailable_of_zero a1 a2 a3 a4 b1 b2 b3 b4 c1 c2 c3 c4 d1 d2 d3 d4 h

/-- Witness for C10 at the completely empty board. -/
theorem moves_available_of_empty_cell_witness :
    movesAvailable [[0,0,0,0],[0,0,0,0],[0,0,0,0],[0,0,0,0]] = true :=
  moves_available_of_empty_cell 0 0 0 0 0 0 0 0 0 0 0 0 0 0 0 0 (by decide)

/-- When the `moved` flag is false the rearranged board written back by
`compute_move` is the original board. -/
lemma computeMove_board_of_not_moved
    (a1 a2 a3 a4 b1 b2 b3 b4 c1 c2 c3 c4 d1 d2 d3 d4 : Nat) (d : Dir)
    (h : (computeMove d [[a1,a2,a3,a4],[b1,b2,b3,b4],[c1,c2,c3,c4],[d1,d2,d3,d4]]).2.1 = false) :
    (computeMove d [[a1,a2,a3,a4],[b1,b2,b3,b4],[c1,c2,c3,c4],[d1,d2,d3,d4]]).1 =
      [[a1,a2,a3,a4],[b1,b2,b3,b4],[c1,c2,c3,c4],[d1,d2,d3,d4]] := by
  by_contra hne
  rw [(computeMove_moved_iff a1 a2 a3 a4 b1 b2 b3 b4 c1 c2 c3 c4 d1 d2 d3 d4 d).2 hne] at h
  exact absurd h (by simp)

/-- C2: a move attempt with `moved = false` leaves the board, the score, the
best score unchanged (the session is returned byte-for-byte identical) and
consumes no random draw, so no new tile is inserted. -/
theorem noop_move_leaves_session_unchanged
    (a1 a2 a3 a4 b1 b2 b3 b4 c1 c2 c3 c4 d1 d2 d3 d4 sc bs : Nat)
    (supply : List (Nat × Bool)) (d : Dir)
    (h : (computeMove d [[a1,a2,a3,a4],[b1,b2,b3,b4],[c1,c2,c3,c4],[d1,d2,d3,d4]]).2.1 = false) :
    queueMove d ⟨[[a1,a2,a3,a4],[b1,b2,b3,b4],[c1,c2,c3,c4],[d1,d2,d3,d4]], sc, bs⟩ supply =
      (⟨[[a1,a2,a3,a4],[b1,b2,b3,b4],[c1,c2,c3,c4],[d1,d2,d3,d4]], sc, bs⟩, supply) := by
  have hb := computeMove_board_of_not_moved a1 a2 a3 a4 b1 b2 b3 b4 c1 c2 c3 c4 d1 d2 d3 d4 d h
  simp only [queueMove] at *
  rw [h, hb]
  simp

/-- Witness for C2: with a single tile already at the left edge, a `left`
move is a no-op and the session and random supply pass through unchanged. -/
theorem noop_move_leaves_session_unchanged_witness :
    queueMove .left ⟨[[2,0,0,0],[0,0,0,0],[0,0,0,0],[0,0,0,0]], 5, 7⟩ [(3, true)] =
      (⟨[[2,0,0,0],[0,0,0,0],[0,0,0,0],[0,0,0,0]], 5, 7⟩, [(3, true)]) :=
  noop_move_leaves_session_unchanged 2 0 0 0 0 0 0 0 0 0 0 0 0 0 0 0 5 7
    [(3, true)] .left (by decide)

/-- C3: each tile merges at most once per move. Sliding the line
`[v, v, v, v]` left merges the first pair and the second pair separately,
giving `[2v, 2v, 0, 0]` with score gain `4v` — the first merge's result is
never merged again within the move. -/
theorem single_merge_per_tile (v : Nat) (hv : v ≠ 0) :
    computeMove .left [[v, v, v, v], [0,0,0,0], [0,0,0,0], [0,0,0,0]] =
      ([[v * 2, v * 2, 0, 0], [0,0,0,0], [0,0,0,0], [0,0,0,0]], true, v * 2 + v * 2) := by
  simp [computeMove, moveRowsBoard, moveRowsMoved, moveRowsScore, newLine, lineMoved,
    lineScore, lineTiles, mergePass, hv, List.replicate]

/-- Witness for C3 at `v = 2`: `[2,2,2,2]` moved left gives `[4,4,0,0]` with
score gain 8, not `[8,0,0,0]`. -/
theorem single_merge_per_tile_witness :
    computeMove .left [[2, 2, 2, 2], [0,0,0,0], [0,0,0,0], [0,0,0,0]] =
      ([[4, 4, 0, 0], [0,0,0,0], [0,0,0,0], [0,0,0,0]], true, 8) := by
  simpa using single_merge_per_tile 2 (by decide)

/-- C7: the grid produced by a `right` move is `reverse_rows` of the grid
produced by a `left` move on the row-reversed board, and the grid produced by
a `down` move is the transpose of the grid produced by a `right` move on the
transposed board — `line_iterator` builds the `right`/`down` coordinate lines
as exactly these mirror images, so the identities hold definitionally for
every board. -/
theorem direction_symmetry (b : Board) :
    (computeMove .right b).1 = reverseRows ((computeMove .left (reverseRows b)).1) ∧
      (computeMove .down b).1 = transpose4 ((computeMove .right (transpose4 b)).1) :=
  ⟨rfl, rfl⟩

/-! ### Random-tile insertion -/

lemma mem_emptyCells (b : Board) (rc : Nat × Nat) :
    rc ∈ emptyCells b ↔ rc.1 < 4 ∧ rc.2 < 4 ∧ getCell b rc.1 rc.2 = 0 := by
  obtain ⟨r, c⟩ := rc
  constructor
  · intro h
    simp only [emptyCells, List.mem_flatten, List.mem_map] at h
    obtain ⟨l, ⟨r', hr', rfl⟩, hmem⟩ := h
    rw [List.mem_filter] at hmem
    obtain ⟨hmap, hdec⟩ := hmem
    simp only [List.mem_map, List.mem_range] at hmap hr'
    obtain ⟨c', hc', heq⟩ := hmap
    cases heq
    exact ⟨hr', hc', by simpa using hdec⟩
  · rintro ⟨hr, hc, h0⟩
    simp only [emptyCells, List.mem_flatten, List.mem_map]
    refine ⟨_, ⟨r, by simpa using hr, rfl⟩, ?_⟩
    rw [List.mem_filter]
    constructor
    · simp only [List.mem_map, List.mem_range]
      exact ⟨c, hc, rfl⟩
    · simpa using h0

/-- The cell selected by `add_random_tile` is a currently empty cell. -/
lemma addRandomTile_chosen_mem (b : Board) (k : Nat) (h : emptyCells b ≠ []) :
    (emptyCells b).getD (k % (emptyCells b).length) (0, 0) ∈ emptyCells b := by
  have hlen : 0 < (emptyCells b).length := List.length_pos.2 h
  have hlt : k % (emptyCells b).length < (emptyCells b).length := Nat.mod_lt _ hlen
  rw [List.getD_eq_getElem _ _ hlt]
  exact List.getElem_mem _

/-- C5: `add_random_tile` places only values 2 or 4, only into a cell that is
currently empty (so it never overwrites a tile), reports `true` exactly when
it places a tile, and on a board with no empty cell it reports `false` and
returns the board unchanged. -/
theorem insert_random_tile_contract (b : Board) (k : Nat) (four : Bool) :
    (emptyCells b = [] → addRandomTile b k four = (false, b)) ∧
    (emptyCells b ≠ [] →
      (addRandomTile b k four).1 = true ∧
      ∃ r c, (r, c) ∈ emptyCells b ∧ getCell b r c = 0 ∧
        (addRandomTile b k four).2 = setCell b r c (if four then 4 else 2) ∧
        ((if four then 4 else 2) = 2 ∨ (if four then 4 else 2) = 4)) := by
  constructor
  · intro h
    simp [addRandomTile, h]
  · intro h
    have hmem := addRandomTile_chosen_mem b k h
    refine ⟨by simp [addRandomTile, h], ((emptyCells b).getD (k % (emptyCells b).length) (0, 0)).1,
      ((emptyCells b).getD (k % (emptyCells b).length) (0, 0)).2, by simpa using hmem,
      ((mem_emptyCells b _).1 hmem).2.2, by simp [addRandomTile, h], by cases four <;> simp⟩

/-- Witness for C5: on a full board nothing is placed and the board is
returned unchanged; on the empty board a tile is placed. -/
theorem insert_random_tile_contract_witness :
    addRandomTile [[2,4,2,4],[4,2,4,2],[2,4,2,4],[4,2,4,2]] 0 false =
      (false, [[2,4,2,4],[4,2,4,2],[2,4,2,4],[4,2,4,2]]) ∧
    (addRandomTile [[0,0,0,0],[0,0,0,0],[0,0,0,0],[0,0,0,0]] 0 false).1 = true :=
  ⟨(insert_random_tile_contract [[2,4,2,4],[4,2,4,2],[2,4,2,4],[4,2,4,2]] 0 false).1 (by decide),
   ((insert_random_tile_contract [[0,0,0,0],[0,0,0,0],[0,0,0,0],[0,0,0,0]] 0 false).2
     (by decide)).1⟩

/-! ### Board value sums -/

lemma sum_set (l : List Nat) : ∀ (i : Nat), i < l.length → ∀ (x : Nat),
    (l.set i x).sum + l.getD i 0 = l.sum + x := by
  induction l with
  | nil => simp
  | cons y ys ih =>
    intro i hi x
    cases i with
    | zero => simp [List.set]; omega
    | succ j =>
      have := ih j (by simpa using hi) x
      simp only [List.set, List.sum_cons, List.getD_cons_succ]
      omega

lemma boardSum_setCell (b : Board) (r c v : Nat) (hr : r < b.length)
    (hc : c < (b.getD r []).length) :
    boardSum (setCell b r c v) + getCell b r c = boardSum b + v := by
  have hrow := sum_set (b.getD r []) c hc v
  have hmap : (setCell b r c v).map List.sum = (b.map List.sum).set r ((b.getD r []).set c v).sum := by
    simp [setCell, List.map_set]
  have hb := sum_set (b.map List.sum) r (by simpa using hr) ((b.getD r []).set c v).sum
  have hget : (b.map List.sum).getD r 0 = (b.getD r []).sum := by
    rw [List.getD_eq_getElem _ _ (by simpa using hr), List.getElem_map,
      List.getD_eq_getElem _ _ hr]
  rw [boardSum, hmap, boardSum, getCell]
  omega

/-- The board value sum is unchanged by a move in any direction. -/
lemma boardSum_computeMove
    (a1 a2 a3 a4 b1 b2 b3 b4 c1 c2 c3 c4 d1 d2 d3 d4 : Nat) (d : Dir) :
    boardSum (computeMove d [[a1,a2,a3,a4],[b1,b2,b3,b4],[c1,c2,c3,c4],[d1,d2,d3,d4]]).1 =
      boardSum [[a1,a2,a3,a4],[b1,b2,b3,b4],[c1,c2,c3,c4],[d1,d2,d3,d4]] := by
  cases d
  · simp [computeMove, moveRowsBoard, boardSum, newLine_sum]
  · simp [computeMove, moveRowsBoard, reverseRows, boardSum, newLine_sum, List.sum_reverse]
    omega
  · rw [computeMove]
    rw [show transpose4 [[a1,a2,a3,a4],[b1,b2,b3,b4],[c1,c2,c3,c4],[d1,d2,d3,d4]] =
      [[a1,b1,c1,d1],[a2,b2,c2,d2],[a3,b3,c3,d3],[a4,b4,c4,d4]] from transpose4_explicit ..]
    obtain ⟨p1, p2, p3, p4, hp⟩ := exists_four (newLine [a1,b1,c1,d1]) (newLine_length _)
    obtain ⟨q1, q2, q3, q4, hq⟩ := exists_four (newLine [a2,b2,c2,d2]) (newLine_length _)
    obtain ⟨r1, r2, r3, r4, hr⟩ := exists_four (newLine [a3,b3,c3,d3]) (newLine_length _)
    obtain ⟨s1, s2, s3, s4, hs⟩ := exists_four (newLine [a4,b4,c4,d4]) (newLine_length _)
    have hps := newLine_sum [a1,b1,c1,d1]
    have hqs := newLine_sum [a2,b2,c2,d2]
    have hrs := newLine_sum [a3,b3,c3,d3]
    have hss := newLine_sum [a4,b4,c4,d4]
    rw [hp] at hps
    rw [hq] at hqs
    rw [hr] at hrs
    rw [hs] at hss
    simp only [moveRowsBoard, List.map_cons, List.map_nil, hp, hq, hr, hs,
      transpose4_explicit, boardSum, List.sum_cons, List.sum_nil] at *
    omega
  · rw [computeMove]
    rw [show transpose4 [[a1,a2,a3,a4],[b1,b2,b3,b4],[c1,c2,c3,c4],[d1,d2,d3,d4]] =
      [[a1,b1,c1,d1],[a2,b2,c2,d2],[a3,b3,c3,d3],[a4,b4,c4,d4]] from transpose4_explicit ..]
    obtain ⟨p1, p2, p3, p4, hp⟩ := exists_four (newLine [d1,c1,b1,a1]) (newLine_length _)
    obtain ⟨q1, q2, q3, q4, hq⟩ := exists_four (newLine [d2,c2,b2,a2]) (newLine_length _)
    obtain ⟨r1, r2, r3, r4, hr⟩ := exists_four (newLine [d3,c3,b3,a3]) (newLine_length _)
    obtain ⟨s1, s2, s3, s4, hs⟩ := exists_four (newLine [d4,c4,b4,a4]) (newLine_length _)
    have hps := newLine_sum [d1,c1,b1,a1]
    have hqs := newLine_sum [d2,c2,b2,a2]
    have hrs := newLine_sum [d3,c3,b3,a3]
    have hss := newLine_sum [d4,c4,b4,a4]
    rw [hp] at hps
    rw [hq] at hqs
    rw [hr] at hrs
    rw [hs] at hss
    simp only [reverseRows, moveRowsBoard, List.map_cons, List.map_nil, hp, hq, hr, hs,
      List.reverse_cons, List.reverse_nil, List.nil_append, List.cons_append,
      transpose4_explicit, boardSum, List.sum_cons, List.sum_nil] at *
    omega

/-- C6: a move never changes the total of all tile values (each merge turns
`v + v` into `2v`), and the total only grows when `add_random_tile` actually
places a tile — an insertion that places nothing leaves the total unchanged,
a successful insertion strictly increases it. -/
theorem board_sum_conserved
    (a1 a2 a3 a4 b1 b2 b3 b4 c1 c2 c3 c4 d1 d2 d3 d4 : Nat) (d : Dir) (k : Nat) (four : Bool) :
    boardSum (computeMove d [[a1,a2,a3,a4],[b1,b2,b3,b4],[c1,c2,c3,c4],[d1,d2,d3,d4]]).1 =
      boardSum [[a1,a2,a3,a4],[b1,b2,b3,b4],[c1,c2,c3,c4],[d1,d2,d3,d4]] ∧
    ((addRandomTile [[a1,a2,a3,a4],[b1,b2,b3,b4],[c1,c2,c3,c4],[d1,d2,d3,d4]] k four).1 = false →
      boardSum (addRandomTile [[a1,a2,a3,a4],[b1,b2,b3,b4],[c1,c2,c3,c4],[d1,d2,d3,d4]] k four).2 =
        boardSum [[a1,a2,a3,a4],[b1,b2,b3,b4],[c1,c2,c3,c4],[d1,d2,d3,d4]]) ∧
    ((addRandomTile [[a1,a2,a3,a4],[b1,b2,b3,b4],[c1,c2,c3,c4],[d1,d2,d3,d4]] k four).1 = true →
      boardSum [[a1,a2,a3,a4],[b1,b2,b3,b4],[c1,c2,c3,c4],[d1,d2,d3,d4]] <
        boardSum (addRandomTile [[a1,a2,a3,a4],[b1,b2,b3,b4],[c1,c2,c3,c4],[d1,d2,d3,d4]] k four).2) := by
  refine ⟨boardSum_computeMove a1 a2 a3 a4 b1 b2 b3 b4 c1 c2 c3 c4 d1 d2 d3 d4 d, ?_, ?_⟩
  · intro h
    by_cases he : emptyCells [[a1,a2,a3,a4],[b1,b2,b3,b4],[c1,c2,c3,c4],[d1,d2,d3,d4]] = []
    · simp [addRandomTile, he]
    · simp [addRandomTile, he] at h
  · intro h
    by_cases he : emptyCells [[a1,a2,a3,a4],[b1,b2,b3,b4],[c1,c2,c3,c4],[d1,d2,d3,d4]] = []
    · simp [addRandomTile, he] at h
    · have hmem := addRandomTile_chosen_mem
        [[a1,a2,a3,a4],[b1,b2,b3,b4],[c1,c2,c3,c4],[d1,d2,d3,d4]] k he
      obtain ⟨hr4, hc4, h0⟩ := (mem_emptyCells _ _).1 hmem
      have hlen : (([[a1,a2,a3,a4],[b1,b2,b3,b4],[c1,c2,c3,c4],[d1,d2,d3,d4]] :
          Board).getD ((emptyCells [[a1,a2,a3,a4],[b1,b2,b3,b4],[c1,c2,c3,c4],[d1,d2,d3,d4]]).getD
            (k % (emptyCells [[a1,a2,a3,a4],[b1,b2,b3,b4],[c1,c2,c3,c4],[d1,d2,d3,d4]]).length)
            (0, 0)).1 []).length = 4 := by
        interval_cases h' : (((emptyCells
            [[a1,a2,a3,a4],[b1,b2,b3,b4],[c1,c2,c3,c4],[d1,d2,d3,d4]]).getD
            (k % (emptyCells [[a1,a2,a3,a4],[b1,b2,b3,b4],[c1,c2,c3,c4],[d1,d2,d3,d4]]).length)
            (0, 0)).1) <;> rfl
      have hsum := boardSum_setCell [[a1,a2,a3,a4],[b1,b2,b3,b4],[c1,c2,c3,c4],[d1,d2,d3,d4]]
        ((emptyCells [[a1,a2,a3,a4],[b1,b2,b3,b4],[c1,c2,c3,c4],[d1,d2,d3,d4]]).getD
          (k % (emptyCells [[a1,a2,a3,a4],[b1,b2,b3,b4],[c1,c2,c3,c4],[d1,d2,d3,d4]]).length)
          (0, 0)).1
        ((emptyCells [[a1,a2,a3,a4],[b1,b2,b3,b4],[c1,c2,c3,c4],[d1,d2,d3,d4]]).getD
          (k % (emptyCells [[a1,a2,a3,a4],[b1,b2,b3,b4],[c1,c2,c3,c4],[d1,d2,d3,d4]]).length)
          (0, 0)).2
        (if four then 4 else 2) (by simpa using hr4) (by omega)
      rw [h0] at hsum
      have hv : 2 ≤ (if four then 4 else 2) := by cases four <;> simp
      have hsnd : (addRandomTile [[a1,a2,a3,a4],[b1,b2,b3,b4],[c1,c2,c3,c4],[d1,d2,d3,d4]] k four).2 =
          setCell [[a1,a2,a3,a4],[b1,b2,b3,b4],[c1,c2,c3,c4],[d1,d2,d3,d4]]
            ((emptyCells [[a1,a2,a3,a4],[b1,b2,b3,b4],[c1,c2,c3,c4],[d1,d2,d3,d4]]).getD
              (k % (emptyCells [[a1,a2,a3,a4],[b1,b2,b3,b4],[c1,c2,c3,c4],[d1,d2,d3,d4]]).length)
              (0, 0)).1
            ((emptyCells [[a1,a2,a3,a4],[b1,b2,b3,b4],[c1,c2,c3,c4],[d1,d2,d3,d4]]).getD
              (k % (emptyCells [[a1,a2,a3,a4],[b1,b2,b3,b4],[c1,c2,c3,c4],[d1,d2,d3,d4]]).length)
              (0, 0)).2 (if four then 4 else 2) := by
        rw [addRandomTile, if_neg he]
      rw [hsnd]
      omega

/-- Witness for C6 at the board `[[2,2,0,0],0,0,0]` with a successful
insertion. -/
theorem board_sum_conserved_witness :
    boardSum (computeMove .left [[2,2,0,0],[0,0,0,0],[0,0,0,0],[0,0,0,0]]).1 =
      boardSum [[2,2,0,0],[0,0,0,0],[0,0,0,0],[0,0,0,0]] ∧
    boardSum [[2,2,0,0],[0,0,0,0],[0,0,0,0],[0,0,0,0]] <
      boardSum (addRandomTile [[2,2,0,0],[0,0,0,0],[0,0,0,0],[0,0,0,0]] 0 false).2 :=
  ⟨(board_sum_conserved 2 2 0 0 0 0 0 0 0 0 0 0 0 0 0 0 .left 0 false).1,
   (board_sum_conserved 2 2 0 0 0 0 0 0 0 0 0 0 0 0 0 0 .left 0 false).2.2 (by decide)⟩

/-! ### The power-of-two invariant -/

lemma getCell_mem (b : Board) (r c : Nat) (h : getCell b r c ≠ 0) :
    ∃ row ∈ b, getCell b r c ∈ row := by
  by_cases hr : r < b.length
  · by_cases hc : c < (b.getD r []).length
    · refine ⟨b.getD r [], ?_, ?_⟩
      · rw [List.getD_eq_getElem b _ hr]
        exact List.getElem_mem _
      · rw [getCell, List.getD_eq_getElem _ _ hc]
        exact List.getElem_mem _
    · exact absurd (by rw [getCell, List.getD_eq_default _ _ (by omega)]) h
  · exact absurd (by rw [getCell, List.getD_eq_default b _ (by omega)]; simp) h

lemma validBoard_moveRowsBoard (b : Board) (h : validBoard b) :
    validBoard (moveRowsBoard b) := by
  intro row hrow v hv hv0
  simp only [moveRowsBoard, List.mem_map] at hrow
  obtain ⟨row0, hrow0, rfl⟩ := hrow
  exact newLine_valid row0 (h row0 hrow0) v hv hv0

lemma validBoard_reverseRows (b : Board) (h : validBoard b) :
    validBoard (reverseRows b) := by
  intro row hrow v hv hv0
  simp only [reverseRows, List.mem_map] at hrow
  obtain ⟨row0, hrow0, rfl⟩ := hrow
  exact h row0 hrow0 v (List.mem_reverse.1 hv) hv0

lemma validBoard_transpose4 (b : Board) (h : validBoard b) :
    validBoard (transpose4 b) := by
  intro row hrow v hv hv0
  simp only [transpose4, List.mem_cons, List.not_mem_nil, or_false] at hrow
  rcases hrow with rfl | rfl | rfl | rfl <;>
    (simp only [List.mem_cons, List.not_mem_nil, or_false] at hv
     rcases hv with rfl | rfl | rfl | rfl <;>
       (obtain ⟨row0, hr0, hm⟩ := getCell_mem b _ _ hv0
        exact h row0 hr0 _ hm hv0))

/-- Every move preserves the tile-value invariant. -/
lemma validBoard_computeMove (b : Board) (d : Dir) (h : validBoard b) :
    validBoard (computeMove d b).1 := by
  cases d
  · exact validBoard_moveRowsBoard b h
  · exact validBoard_reverseRows _ (validBoard_moveRowsBoard _ (validBoard_reverseRows b h))
  · exact validBoard_transpose4 _ (validBoard_moveRowsBoard _ (validBoard_transpose4 b h))
  · exact validBoard_transpose4 _ (validBoard_reverseRows _
      (validBoard_moveRowsBoard _ (validBoard_reverseRows _ (validBoard_transpose4 b h))))

lemma validBoard_setCell (b : Board) (r c v : Nat) (hval : validVal v) (h : validBoard b) :
    validBoard (setCell b r c v) := by
  intro row hrow x hx hx0
  rcases List.mem_or_eq_of_mem_set hrow with hrow' | rfl
  · exact h row hrow' x hx hx0
  · rcases List.mem_or_eq_of_mem_set hx with hx' | rfl
    · by_cases hr : r < b.length
      · rw [List.getD_eq_getElem _ _ hr] at hx'
        exact h _ (List.getElem_mem _) x hx' hx0
      · rw [List.getD_eq_default _ _ (by omega)] at hx'
        simp at hx'
    · exact hval

/-- Inserting a random tile preserves the tile-value invariant: the inserted
value is 2 or 4. -/
lemma validBoard_addRandomTile (b : Board) (k : Nat) (four : Bool) (h : validBoard b) :
    validBoard (addRandomTile b k four).2 := by
  rw [addRandomTile]
  by_cases he : emptyCells b = []
  · rw [if_pos he]
    exact h
  · rw [if_neg he]
    refine validBoard_setCell b _ _ _ ?_ h
    cases four
    · exact ⟨by decide, 1, by decide⟩
    · exact ⟨by decide, 2, by decide⟩

lemma validBoard_emptyBoard : validBoard emptyBoard := by
  intro row hrow v hv hv0
  rw [emptyBoard] at hrow
  rw [List.eq_of_mem_replicate hrow] at hv
  exact absurd (List.eq_of_mem_replicate hv) hv0

/-- C9: every stored tile value is at least 2 and a power of 2, and the
invariant is preserved by a move in any direction, by random-tile insertion,
and holds for the board built by a reset. -/
theorem tile_value_invariant (b : Board) (d : Dir) (k best : Nat) (four : Bool)
    (r1 r2 : Nat × Bool) (h : validBoard b) :
    validBoard (computeMove d b).1 ∧ validBoard (addRandomTile b k four).2 ∧
      validBoard (resetGame best r1 r2).board :=
  ⟨validBoard_computeMove b d h, validBoard_addRandomTile b k four h,
   validBoard_addRandomTile _ _ _ (validBoard_addRandomTile _ _ _ validBoard_emptyBoard)⟩

/-- Witness for C9 at a concrete valid board. -/
theorem tile_value_invariant_witness :
    validBoard (computeMove .left [[2,4,0,0],[0,0,0,0],[0,0,0,0],[0,0,0,0]]).1 ∧
      validBoard (addRandomTile [[2,4,0,0],[0,0,0,0],[0,0,0,0],[0,0,0,0]] 0 false).2 ∧
      validBoard (resetGame 0 (0, false) (1, true)).board :=
  tile_value_invariant [[2,4,0,0],[0,0,0,0],[0,0,0,0],[0,0,0,0]] .left 0 0 false
    (0, false) (1, true)
    (by
      intro row hrow v hv hv0
      simp only [List.mem_cons, List.not_mem_nil, or_false] at hrow
      rcases hrow with rfl | rfl | rfl | rfl <;> simp only [List.mem_cons, List.not_mem_nil,
        or_false] at hv <;> rcases hv with rfl | rfl | rfl | rfl <;>
        first
          | exact absurd rfl hv0
          | exact ⟨by norm_num, 1, rfl⟩
          | exact ⟨by norm_num, 2, rfl⟩)

/-! ### Persistence of the win condition -/

lemma isWon_moveRowsBoard (b : Board) (h : isWon b = true) :
    isWon (moveRowsBoard b) = true := by
  simp only [isWon, List.any_eq_true, decide_eq_true_eq, WIN_TILE] at h ⊢
  obtain ⟨row, hrow, x, hx, hw⟩ := h
  obtain ⟨y, hy, hyw⟩ := newLine_won row ⟨x, hx, hw⟩
  exact ⟨newLine row, List.mem_map_of_mem _ hrow, y, hy, hyw⟩

lemma isWon_reverseRows (b : Board) (h : isWon b = true) :
    isWon (reverseRows b) = true := by
  simp only [isWon, List.any_eq_true, decide_eq_true_eq] at h ⊢
  obtain ⟨row, hrow, x, hx, hw⟩ := h
  exact ⟨row.reverse, List.mem_map_of_mem _ hrow, x, List.mem_reverse.2 hx, hw⟩

lemma isWon_transpose4_explicit (a1 a2 a3 a4 b1 b2 b3 b4 c1 c2 c3 c4 d1 d2 d3 d4 : Nat) :
    isWon (transpose4 [[a1,a2,a3,a4],[b1,b2,b3,b4],[c1,c2,c3,c4],[d1,d2,d3,d4]]) = true ↔
      isWon [[a1,a2,a3,a4],[b1,b2,b3,b4],[c1,c2,c3,c4],[d1,d2,d3,d4]] = true := by
  rw [transpose4_explicit]
  simp only [isWon, List.any_cons, List.any_nil, Bool.or_eq_true, Bool.false_eq_true, or_false,
    decide_eq_true_eq]
  tauto

/-- A winning tile survives a move in any direction. -/
lemma isWon_computeMove (a1 a2 a3 a4 b1 b2 b3 b4 c1 c2 c3 c4 d1 d2 d3 d4 : Nat) (d : Dir)
    (h : isWon [[a1,a2,a3,a4],[b1,b2,b3,b4],[c1,c2,c3,c4],[d1,d2,d3,d4]] = true) :
    isWon (computeMove d [[a1,a2,a3,a4],[b1,b2,b3,b4],[c1,c2,c3,c4],[d1,d2,d3,d4]]).1 = true := by
  cases d
  · exact isWon_moveRowsBoard _ h
  · exact isWon_reverseRows _ (isWon_moveRowsBoard _ (isWon_reverseRows _ h))
  · rw [computeMove]
    obtain ⟨p1, p2, p3, p4, hp⟩ := exists_four (newLine [a1,b1,c1,d1]) (newLine_length _)
    obtain ⟨q1, q2, q3, q4, hq⟩ := exists_four (newLine [a2,b2,c2,d2]) (newLine_length _)
    obtain ⟨r1, r2, r3, r4, hr⟩ := exists_four (newLine [a3,b3,c3,d3]) (newLine_length _)
    obtain ⟨s1, s2, s3, s4, hs⟩ := exists_four (newLine [a4,b4,c4,d4]) (newLine_length _)
    have h1 : isWon (transpose4 [[a1,a2,a3,a4],[b1,b2,b3,b4],[c1,c2,c3,c4],[d1,d2,d3,d4]]) = true :=
      (isWon_transpose4_explicit a1 a2 a3 a4 b1 b2 b3 b4 c1 c2 c3 c4 d1 d2 d3 d4).mpr h
    have h2 := isWon_moveRowsBoard _ h1
    have hX : moveRowsBoard (transpose4
        [[a1,a2,a3,a4],[b1,b2,b3,b4],[c1,c2,c3,c4],[d1,d2,d3,d4]]) =
        [[p1,p2,p3,p4],[q1,q2,q3,q4],[r1,r2,r3,r4],[s1,s2,s3,s4]] := by
      rw [transpose4_explicit]
      simp only [moveRowsBoard, List.map_cons, List.map_nil, hp, hq, hr, hs]
    rw [hX] at h2
    rw [hX]
    exact (isWon_transpose4_explicit p1 p2 p3 p4 q1 q2 q3 q4 r1 r2 r3 r4 s1 s2 s3 s4).mpr h2
  · rw [computeMove]
    obtain ⟨p1, p2, p3, p4, hp⟩ := exists_four (newLine [d1,c1,b1,a1]) (newLine_length _)
    obtain ⟨q1, q2, q3, q4, hq⟩ := exists_four (newLine [d2,c2,b2,a2]) (newLine_length _)
    obtain ⟨r1, r2, r3, r4, hr⟩ := exists_four (newLine [d3,c3,b3,a3]) (newLine_length _)
    obtain ⟨s1, s2, s3, s4, hs⟩ := exists_four (newLine [d4,c4,b4,a4]) (newLine_length _)
    have h1 : isWon (reverseRows (transpose4
        [[a1,a2,a3,a4],[b1,b2,b3,b4],[c1,c2,c3,c4],[d1,d2,d3,d4]])) = true :=
      isWon_reverseRows _
        ((isWon_transpose4_explicit a1 a2 a3 a4 b1 b2 b3 b4 c1 c2 c3 c4 d1 d2 d3 d4).mpr h)
    have h2 := isWon_moveRowsBoard _ h1
    have h3 := isWon_reverseRows _ h2
    have hX : reverseRows (moveRowsBoard (reverseRows (transpose4
        [[a1,a2,a3,a4],[b1,b2,b3,b4],[c1,c2,c3,c4],[d1,d2,d3,d4]]))) =
        [[p4,p3,p2,p1],[q4,q3,q2,q1],[r4,r3,r2,r1],[s4,s3,s2,s1]] := by
      rw [show reverseRows (transpose4
          [[a1,a2,a3,a4],[b1,b2,b3,b4],[c1,c2,c3,c4],[d1,d2,d3,d4]]) =
        [[d1,c1,b1,a1],[d2,c2,b2,a2],[d3,c3,b3,a3],[d4,c4,b4,a4]] from rfl]
      simp only [moveRowsBoard, List.map_cons, List.map_nil, hp, hq, hr, hs, reverseRows,
        List.reverse_cons, List.reverse_nil, List.nil_append, List.cons_append]
    rw [hX] at h3
    rw [hX]
    exact (isWon_transpose4_explicit p4 p3 p2 p1 q4 q3 q2 q1 r4 r3 r2 r1 s4 s3 s2 s1).mpr h3

/-- Writing a value into an empty cell cannot remove a winning tile. -/
lemma isWon_setCell (b : Board) (r c v : Nat) (h0 : getCell b r c = 0)
    (h : isWon b = true) : isWon (setCell b r c v) = true := by
  simp only [isWon, List.any_eq_true, decide_eq_true_eq] at h ⊢
  obtain ⟨row, hrow, x, hx, hw⟩ := h
  obtain ⟨j, hj, rfl⟩ := List.mem_iff_getElem.1 hrow
  by_cases hjr : j = r
  · subst hjr
    obtain ⟨i, hi, rfl⟩ := List.mem_iff_getElem.1 hx
    by_cases hic : i = c
    · subst hic
      rw [getCell, List.getD_eq_getElem _ _ hj, List.getD_eq_getElem _ _ hi] at h0
      rw [h0] at hw
      simp [WIN_TILE] at hw
    · have hgd : b.getD j [] = b[j] := List.getD_eq_getElem b _ hj
      refine ⟨(b.getD j []).set c v, ?_, b[j][i], ?_, hw⟩
      · rw [setCell]
        have hjl : j < (b.set j ((b.getD j []).set c v)).length := by simpa using hj
        exact List.mem_iff_getElem.2 ⟨j, hjl, List.getElem_set_self ..⟩
      · rw [hgd]
        have hil : i < (b[j].set c v).length := by simpa using hi
        exact List.mem_iff_getElem.2 ⟨i, hil, List.getElem_set_ne (by omega) ..⟩
  · refine ⟨b[j], ?_, x, hx, hw⟩
    rw [setCell]
    have hjl : j < (b.set r ((b.getD r []).set c v)).length := by simpa using hj
    exact List.mem_iff_getElem.2 ⟨j, hjl, List.getElem_set_ne (by omega) ..⟩

/-- Inserting a random tile cannot remove a winning tile: it is placed into a
currently empty cell. -/
lemma isWon_addRandomTile (b : Board) (k : Nat) (four : Bool) (h : isWon b = true) :
    isWon (addRandomTile b k four).2 = true := by
  rw [addRandomTile]
  by_cases he : emptyCells b = []
  · rw [if_pos he]
    exact h
  · rw [if_neg he]
    exact isWon_setCell b _ _ _
      ((mem_emptyCells b _).1 (addRandomTile_chosen_mem b k he)).2.2 h

/-- Well-formedness of a board: 4 rows of 4 cells, as maintained by
`Game2048App` (`self.board = [[None] * BOARD_SIZE for _ in range(BOARD_SIZE)]`
and every write stays in bounds). -/
def Wf (b : Board) : Prop := b.length = 4 ∧ ∀ row ∈ b, row.length = 4

lemma Wf_moveRowsBoard (b : Board) (h : Wf b) : Wf (moveRowsBoard b) := by
  refine ⟨by simp [moveRowsBoard, h.1], ?_⟩
  intro row hrow
  simp only [moveRowsBoard, List.mem_map] at hrow
  obtain ⟨row0, hr0, rfl⟩ := hrow
  rw [newLine_length]
  exact h.2 row0 hr0

lemma Wf_reverseRows (b : Board) (h : Wf b) : Wf (reverseRows b) := by
  refine ⟨by simp [reverseRows, h.1], ?_⟩
  intro row hrow
  simp only [reverseRows, List.mem_map] at hrow
  obtain ⟨row0, hr0, rfl⟩ := hrow
  rw [List.length_reverse]
  exact h.2 row0 hr0

lemma Wf_transpose4 (b : Board) : Wf (transpose4 b) := by
  refine ⟨rfl, ?_⟩
  intro row hrow
  simp only [transpose4, List.mem_cons, List.not_mem_nil, or_false] at hrow
  rcases hrow with rfl | rfl | rfl | rfl <;> rfl

lemma Wf_computeMove (b : Board) (d : Dir) (h : Wf b) : Wf (computeMove d b).1 := by
  cases d
  · exact Wf_moveRowsBoard b h
  · exact Wf_reverseRows _ (Wf_moveRowsBoard _ (Wf_reverseRows b h))
  · exact Wf_transpose4 _
  · exact Wf_transpose4 _

lemma Wf_setCell (b : Board) (r c v : Nat) (hr : r < b.length) (h : Wf b) :
    Wf (setCell b r c v) := by
  refine ⟨by simp [setCell, h.1], ?_⟩
  intro row hrow
  rcases List.mem_or_eq_of_mem_set hrow with hrow' | rfl
  · exact h.2 row hrow'
  · rw [List.length_set, List.getD_eq_getElem b _ hr]
    exact h.2 _ (List.getElem_mem _)

lemma Wf_addRandomTile (b : Board) (k : Nat) (four : Bool) (h : Wf b) :
    Wf (addRandomTile b k four).2 := by
  rw [addRandomTile]
  by_cases he : emptyCells b = []
  · rw [if_pos he]
    exact h
  · rw [if_neg he]
    refine Wf_setCell b _ _ _ ?_ h
    rw [h.1]
    exact ((mem_emptyCells b _).1 (addRandomTile_chosen_mem b k he)).1

lemma Wf_explicit (b : Board) (h : Wf b) :
    ∃ a1 a2 a3 a4 b1 b2 b3 b4 c1 c2 c3 c4 d1 d2 d3 d4,
      b = [[a1,a2,a3,a4],[b1,b2,b3,b4],[c1,c2,c3,c4],[d1,d2,d3,d4]] := by
  obtain ⟨r1, r2, r3, r4, rfl⟩ := exists_four b h.1
  obtain ⟨a1, a2, a3, a4, rfl⟩ := exists_four r1 (h.2 r1 (by simp))
  obtain ⟨b1, b2, b3, b4, rfl⟩ := exists_four r2 (h.2 r2 (by simp))
  obtain ⟨c1, c2, c3, c4, rfl⟩ := exists_four r3 (h.2 r3 (by simp))
  obtain ⟨d1, d2, d3, d4, rfl⟩ := exists_four r4 (h.2 r4 (by simp))
  exact ⟨a1, a2, a3, a4, b1, b2, b3, b4, c1, c2, c3, c4, d1, d2, d3, d4, rfl⟩

/-- One accepted input preserves well-formedness and the win condition. -/
lemma isWon_queueMove (s : Session) (d : Dir) (sup : List (Nat × Bool))
    (hwf : Wf s.board) (h : isWon s.board = true) :
    isWon (queueMove d s sup).1.board = true ∧ Wf (queueMove d s sup).1.board := by
  obtain ⟨a1, a2, a3, a4, b1, b2, b3, b4, c1, c2, c3, c4, d1, d2, d3, d4, hB⟩ :=
    Wf_explicit s.board hwf
  rw [queueMove]
  by_cases hm : (computeMove d s.board).2.1 = true
  · rw [if_pos hm]
    constructor
    · apply isWon_addRandomTile
      rw [hB]
      rw [hB] at h
      exact isWon_computeMove a1 a2 a3 a4 b1 b2 b3 b4 c1 c2 c3 c4 d1 d2 d3 d4 d h
    · exact Wf_addRandomTile _ _ _ (Wf_computeMove _ d hwf)
  · rw [if_neg hm]
    have hm' : (computeMove d s.board).2.1 = false := by
      cases hcm : (computeMove d s.board).2.1
      · rfl
      · exact absurd hcm hm
    have hb : (computeMove d s.board).1 = s.board := by
      rw [hB] at hm' ⊢
      exact computeMove_board_of_not_moved a1 a2 a3 a4 b1 b2 b3 b4 c1 c2 c3 c4 d1 d2 d3 d4 d hm'
    simp only [hb]
    exact ⟨h, hwf⟩

/-- C8: once a tile with value at least 2048 is on the board, the win
condition (`any(tile.value >= WIN_TILE ...)`, recomputed by the app after
each move) remains true after any sequence of further accepted inputs —
merges only grow the surviving tile, insertions only fill empty cells — so
the session keeps reporting the win until an explicit reset. -/
theorem win_reported_for_rest_of_session
    (a1 a2 a3 a4 b1 b2 b3 b4 c1 c2 c3 c4 d1 d2 d3 d4 sc bs : Nat)
    (ds : List Dir) (sup : List (Nat × Bool))
    (h : isWon [[a1,a2,a3,a4],[b1,b2,b3,b4],[c1,c2,c3,c4],[d1,d2,d3,d4]] = true) :
    isWon (runSession ⟨[[a1,a2,a3,a4],[b1,b2,b3,b4],[c1,c2,c3,c4],[d1,d2,d3,d4]], sc, bs⟩
      ds sup).board = true := by
  have main : ∀ (ds : List Dir) (s : Session) (sup : List (Nat × Bool)),
      Wf s.board → isWon s.board = true → isWon (runSession s ds sup).board = true := by
    intro ds
    induction ds with
    | nil =>
      intro s sup _ h'
      simpa [runSession] using h'
    | cons d rest ih =>
      intro s sup hwf h'
      rw [runSession]
      obtain ⟨hw, hwf'⟩ := isWon_queueMove s d sup hwf h'
      exact ih _ _ hwf' hw
  refine main ds _ sup ⟨rfl, ?_⟩ h
  intro row hrow
  simp only [List.mem_cons, List.not_mem_nil, or_false] at hrow
  rcases hrow with rfl | rfl | rfl | rfl <;> rfl

/-- Witness for C8: a 2048 tile stays reported as won across two further
moves with a random insertion after each. -/
theorem win_reported_for_rest_of_session_witness :
    isWon (runSession ⟨[[2048,0,0,0],[0,0,0,0],[0,0,0,0],[0,0,0,0]], 0, 0⟩
      [.left, .down] [(0, false), (1, true)]).board = true :=
  win_reported_for_rest_of_session 2048 0 0 0 0 0 0 0 0 0 0 0 0 0 0 0 0 0
    [.left, .down] [(0, false), (1, true)] (by decide)

/-! ### `moves_available` versus the four directions -/

/-- An adjacent equal pair (in a row or in a column) makes `moves_available`
return true. -/
lemma movesAvailable_of_adj
    (a1 a2 a3 a4 b1 b2 b3 b4 c1 c2 c3 c4 d1 d2 d3 d4 : Nat)
    (h : ((a2 = a1 ∨ a3 = a2 ∨ a4 = a3) ∨ (b2 = b1 ∨ b3 = b2 ∨ b4 = b3) ∨
          (c2 = c1 ∨ c3 = c2 ∨ c4 = c3) ∨ (d2 = d1 ∨ d3 = d2 ∨ d4 = d3)) ∨
         ((b1 = a1 ∨ c1 = b1 ∨ d1 = c1) ∨ (b2 = a2 ∨ c2 = b2 ∨ d2 = c2) ∨
          (b3 = a3 ∨ c3 = b3 ∨ d3 = c3) ∨ (b4 = a4 ∨ c4 = b4 ∨ d4 = c4))) :
    movesAvailable [[a1,a2,a3,a4],[b1,b2,b3,b4],[c1,c2,c3,c4],[d1,d2,d3,d4]] = true := by
  rw [movesAvailable]
  rcases h with ((h|h|h)|(h|h|h)|(h|h|h)|(h|h|h))|((h|h|h)|(h|h|h)|(h|h|h)|(h|h|h))
  · exact List.any_eq_true.2 ⟨0, by decide, List.any_eq_true.2 ⟨0, by decide,
      by simp [cellCanMove, getCell_00, getCell_01, h]⟩⟩
  · exact List.any_eq_true.2 ⟨0, by decide, List.any_eq_true.2 ⟨1, by decide,
      by simp [cellCanMove, getCell_01, getCell_02, h]⟩⟩
  · exact List.any_eq_true.2 ⟨0, by decide, List.any_eq_true.2 ⟨2, by decide,
      by simp [cellCanMove, getCell_02, getCell_03, h]⟩⟩
  · exact List.any_eq_true.2 ⟨1, by decide, List.any_eq_true.2 ⟨0, by decide,
      by simp [cellCanMove, getCell_10, getCell_11, h]⟩⟩
  · exact List.any_eq_true.2 ⟨1, by decide, List.any_eq_true.2 ⟨1, by decide,
      by simp [cellCanMove, getCell_11, getCell_12, h]⟩⟩
  · exact List.any_eq_true.2 ⟨1, by decide, List.any_eq_true.2 ⟨2, by decide,
      by simp [cellCanMove, getCell_12, getCell_13, h]⟩⟩
  · exact List.any_eq_true.2 ⟨2, by decide, List.any_eq_true.2 ⟨0, by decide,
      by simp [cellCanMove, getCell_20, getCell_21, h]⟩⟩
  · exact List.any_eq_true.2 ⟨2, by decide, List.any_eq_true.2 ⟨1, by decide,
      by simp [cellCanMove, getCell_21, getCell_22, h]⟩⟩
  · exact List.any_eq_true.2 ⟨2, by decide, List.any_eq_true.2 ⟨2, by decide,
      by simp [cellCanMove, getCell_22, getCell_23, h]⟩⟩
  · exact List.any_eq_true.2 ⟨3, by decide, List.any_eq_true.2 ⟨0, by decide,
      by simp [cellCanMove, getCell_30, getCell_31, h]⟩⟩
  · exact List.any_eq_true.2 ⟨3, by decide, List.any_eq_true.2 ⟨1, by decide,
      by simp [cellCanMove, getCell_31, getCell_32, h]⟩⟩
  · exact List.any_eq_true.2 ⟨3, by decide, List.any_eq_true.2 ⟨2, by decide,
      by simp [cellCanMove, getCell_32, getCell_33, h]⟩⟩
  · exact List.any_eq_true.2 ⟨0, by decide, List.any_eq_true.2 ⟨0, by decide,
      by simp [cellCanMove, getCell_00, getCell_10, h]⟩⟩
  · exact List.any_eq_true.2 ⟨1, by decide, List.any_eq_true.2 ⟨0, by decide,
      by simp [cellCanMove, getCell_10, getCell_20, h]⟩⟩
  · exact List.any_eq_true.2 ⟨2, by decide, List.any_eq_true.2 ⟨0, by decide,
      by simp [cellCanMove, getCell_20, getCell_30, h]⟩⟩
  · exact List.any_eq_true.2 ⟨0, by decide, List.any_eq_true.2 ⟨1, by decide,
      by simp [cellCanMove, getCell_01, getCell_11, h]⟩⟩
  · exact List.any_eq_true.2 ⟨1, by decide, List.any_eq_true.2 ⟨1, by decide,
      by simp [cellCanMove, getCell_11, getCell_21, h]⟩⟩
  · exact List.any_eq_true.2 ⟨2, by decide, List.any_eq_true.2 ⟨1, by decide,
      by simp [cellCanMove, getCell_21, getCell_31, h]⟩⟩
  · exact List.any_eq_true.2 ⟨0, by decide, List.any_eq_true.2 ⟨2, by decide,
      by simp [cellCanMove, getCell_02, getCell_12, h]⟩⟩
  · exact List.any_eq_true.2 ⟨1, by decide, List.any_eq_true.2 ⟨2, by decide,
      by simp [cellCanMove, getCell_12, getCell_22, h]⟩⟩
  · exact List.any_eq_true.2 ⟨2, by decide, List.any_eq_true.2 ⟨2, by decide,
      by simp [cellCanMove, getCell_22, getCell_32, h]⟩⟩
  · exact List.any_eq_true.2 ⟨0, by decide, List.any_eq_true.2 ⟨3, by decide,
      by simp [cellCanMove, getCell_03, getCell_13, h]⟩⟩
  · exact List.any_eq_true.2 ⟨1, by decide, List.any_eq_true.2 ⟨3, by decide,
      by simp [cellCanMove, getCell_13, getCell_23, h]⟩⟩
  · exact List.any_eq_true.2 ⟨2, by decide, List.any_eq_true.2 ⟨3, by decide,
      by simp [cellCanMove, getCell_23, getCell_33, h]⟩⟩

set_option maxHeartbeats 1600000 in
/-- A line with a gap before a tile (a zero cell preceding a nonzero cell)
always moves: the tile's target slot is strictly before its start slot. -/
lemma lineMoved_of_zero_before (a b c d : Nat)
    (h : (a = 0 ∧ (b ≠ 0 ∨ c ≠ 0 ∨ d ≠ 0)) ∨ (b = 0 ∧ (c ≠ 0 ∨ d ≠ 0)) ∨ (c = 0 ∧ d ≠ 0)) :
    lineMoved [a, b, c, d] = true := by
  by_cases ha : a = 0 <;> by_cases hb : b = 0 <;> by_cases hc : c = 0 <;> by_cases hd : d = 0 <;>
    simp only [ha, hb, hc, hd, ne_eq, not_true_eq_false, not_false_eq_true, and_true, and_false,
      true_and, false_and, or_false, false_or, or_true, true_or] at h <;>
    simp [lineMoved, lineTiles, mergePass, ha, hb, hc, hd, -List.any_eq_true] <;>
    (try split_ifs) <;> simp_all [-List.any_eq_true] <;> omega

/-- A line whose `moved` contribution is false in both reading orders is
uniform: completely empty or completely full. -/
lemma uniform_of_not_moved (a b c d : Nat)
    (h1 : lineMoved [a, b, c, d] = false) (h2 : lineMoved [d, c, b, a] = false) :
    (a = 0 ∧ b = 0 ∧ c = 0 ∧ d = 0) ∨ (a ≠ 0 ∧ b ≠ 0 ∧ c ≠ 0 ∧ d ≠ 0) := by
  by_contra hmix
  have hzb : ((a = 0 ∧ (b ≠ 0 ∨ c ≠ 0 ∨ d ≠ 0)) ∨ (b = 0 ∧ (c ≠ 0 ∨ d ≠ 0)) ∨ (c = 0 ∧ d ≠ 0)) ∨
      ((d = 0 ∧ (c ≠ 0 ∨ b ≠ 0 ∨ a ≠ 0)) ∨ (c = 0 ∧ (b ≠ 0 ∨ a ≠ 0)) ∨ (b = 0 ∧ a ≠ 0)) := by
    omega
  rcases hzb with hz | hz
  · exact absurd (lineMoved_of_zero_before a b c d hz) (by simp [h1])
  · exact absurd (lineMoved_of_zero_before d c b a hz) (by simp [h2])

set_option maxHeartbeats 1600000 in
/-- A completely full line moves exactly when it has an adjacent equal pair
(the only remaining effect is a merge). -/
lemma lineMoved_full_iff (a b c d : Nat) (ha : a ≠ 0) (hb : b ≠ 0) (hc : c ≠ 0) (hd : d ≠ 0) :
    lineMoved [a, b, c, d] = true ↔ (b = a ∨ c = b ∨ d = c) := by
  simp [lineMoved, lineTiles, mergePass, ha, hb, hc, hd, -List.any_eq_true]
  split_ifs <;> simp_all [-List.any_eq_true] <;> omega

/-- C4 counterexample: on the completely empty board `moves_available`
returns true, yet no direction's attempted move yields `moved = true` — there
is no tile to shift and nothing to merge. -/
theorem moves_available_iff_counterexample :
    ¬ (movesAvailable emptyBoard = true ↔
        ∃ d : Dir, (computeMove d emptyBoard).2.1 = true) := by
  decide

set_option maxHeartbeats 1600000 in
/-- A full board with no adjacent equal pair (in any row or column) makes
`moves_available` return false. -/
lemma movesAvailable_false_of_no_adj
    (a1 a2 a3 a4 b1 b2 b3 b4 c1 c2 c3 c4 d1 d2 d3 d4 : Nat)
    (f00 : a1 ≠ 0) (f01 : a2 ≠ 0) (f02 : a3 ≠ 0) (f03 : a4 ≠ 0)
    (f10 : b1 ≠ 0) (f11 : b2 ≠ 0) (f12 : b3 ≠ 0) (f13 : b4 ≠ 0)
    (f20 : c1 ≠ 0) (f21 : c2 ≠ 0) (f22 : c3 ≠ 0) (f23 : c4 ≠ 0)
    (f30 : d1 ≠ 0) (f31 : d2 ≠ 0) (f32 : d3 ≠ 0) (f33 : d4 ≠ 0)
    (e00 : a2 ≠ a1) (e01 : a3 ≠ a2) (e02 : a4 ≠ a3)
    (e10 : b2 ≠ b1) (e11 : b3 ≠ b2) (e12 : b4 ≠ b3)
    (e20 : c2 ≠ c1) (e21 : c3 ≠ c2) (e22 : c4 ≠ c3)
    (e30 : d2 ≠ d1) (e31 : d3 ≠ d2) (e32 : d4 ≠ d3)
    (g00 : b1 ≠ a1) (g10 : c1 ≠ b1) (g20 : d1 ≠ c1)
    (g01 : b2 ≠ a2) (g11 : c2 ≠ b2) (g21 : d2 ≠ c2)
    (g02 : b3 ≠ a3) (g12 : c3 ≠ b3) (g22 : d3 ≠ c3)
    (g03 : b4 ≠ a4) (g13 : c4 ≠ b4) (g23 : d4 ≠ c4) :
    movesAvailable [[a1,a2,a3,a4],[b1,b2,b3,b4],[c1,c2,c3,c4],[d1,d2,d3,d4]] = false := by
  rw [movesAvailable]
  refine List.any_eq_false.2 ?_
  intro rr hr'
  simp only [List.mem_range] at hr'
  rw [Bool.not_eq_true]
  refine List.any_eq_false.2 ?_
  intro cc hc'
  simp only [List.mem_range] at hc'
  rw [Bool.not_eq_true]
  interval_cases rr <;> interval_cases cc
  · simp [cellCanMove, getCell_00, f00, getCell_01, f01, e00, getCell_10, f10, g00]
  · simp [cellCanMove, getCell_01, f01, getCell_02, f02, e01, getCell_11, f11, g01]
  · simp [cellCanMove, getCell_02, f02, getCell_03, f03, e02, getCell_12, f12, g02]
  · simp [cellCanMove, getCell_03, f03, getCell_13, f13, g03]
  · simp [cellCanMove, getCell_10, f10, getCell_11, f11, e10, getCell_20, f20, g10]
  · simp [cellCanMove, getCell_11, f11, getCell_12, f12, e11, getCell_21, f21, g11]
  · simp [cellCanMove, getCell_12, f12, getCell_13, f13, e12, getCell_22, f22, g12]
  · simp [cellCanMove, getCell_13, f13, getCell_23, f23, g13]
  · simp [cellCanMove, getCell_20, f20, getCell_21, f21, e20, getCell_30, f30, g20]
  · simp [cellCanMove, getCell_21, f21, getCell_22, f22, e21, getCell_31, f31, g21]
  · simp [cellCanMove, getCell_22, f22, getCell_23, f23, e22, getCell_32, f32, g22]
  · simp [cellCanMove, getCell_23, f23, getCell_33, f33, g23]
  · simp [cellCanMove, getCell_30, f30, getCell_31, f31, e30]
  · simp [cellCanMove, getCell_31, f31, getCell_32, f32, e31]
  · simp [cellCanMove, getCell_32, f32, getCell_33, f33, e32]
  · simp [cellCanMove, getCell_33, f33]

set_option maxHeartbeats 1600000 in
/-- If every row and every column is uniformly empty or uniformly full and
some cell is occupied, the whole board is full. -/
lemma full_of_uniform
    (a1 a2 a3 a4 b1 b2 b3 b4 c1 c2 c3 c4 d1 d2 d3 d4 : Nat)
    (u1 : (a1 = 0 ∧ a2 = 0 ∧ a3 = 0 ∧ a4 = 0) ∨ (a1 ≠ 0 ∧ a2 ≠ 0 ∧ a3 ≠ 0 ∧ a4 ≠ 0))
    (u2 : (b1 = 0 ∧ b2 = 0 ∧ b3 = 0 ∧ b4 = 0) ∨ (b1 ≠ 0 ∧ b2 ≠ 0 ∧ b3 ≠ 0 ∧ b4 ≠ 0))
    (u3 : (c1 = 0 ∧ c2 = 0 ∧ c3 = 0 ∧ c4 = 0) ∨ (c1 ≠ 0 ∧ c2 ≠ 0 ∧ c3 ≠ 0 ∧ c4 ≠ 0))
    (u4 : (d1 = 0 ∧ d2 = 0 ∧ d3 = 0 ∧ d4 = 0) ∨ (d1 ≠ 0 ∧ d2 ≠ 0 ∧ d3 ≠ 0 ∧ d4 ≠ 0))
    (u5 : (a1 = 0 ∧ b1 = 0 ∧ c1 = 0 ∧ d1 = 0) ∨ (a1 ≠ 0 ∧ b1 ≠ 0 ∧ c1 ≠ 0 ∧ d1 ≠ 0))
    (u6 : (a2 = 0 ∧ b2 = 0 ∧ c2 = 0 ∧ d2 = 0) ∨ (a2 ≠ 0 ∧ b2 ≠ 0 ∧ c2 ≠ 0 ∧ d2 ≠ 0))
    (u7 : (a3 = 0 ∧ b3 = 0 ∧ c3 = 0 ∧ d3 = 0) ∨ (a3 ≠ 0 ∧ b3 ≠ 0 ∧ c3 ≠ 0 ∧ d3 ≠ 0))
    (u8 : (a4 = 0 ∧ b4 = 0 ∧ c4 = 0 ∧ d4 = 0) ∨ (a4 ≠ 0 ∧ b4 ≠ 0 ∧ c4 ≠ 0 ∧ d4 ≠ 0))
    (hne' : ¬(a1 = 0 ∧ a2 = 0 ∧ a3 = 0 ∧ a4 = 0 ∧ b1 = 0 ∧ b2 = 0 ∧ b3 = 0 ∧ b4 = 0 ∧
      c1 = 0 ∧ c2 = 0 ∧ c3 = 0 ∧ c4 = 0 ∧ d1 = 0 ∧ d2 = 0 ∧ d3 = 0 ∧ d4 = 0)) :
    a1 ≠ 0 ∧ a2 ≠ 0 ∧ a3 ≠ 0 ∧ a4 ≠ 0 ∧ b1 ≠ 0 ∧ b2 ≠ 0 ∧ b3 ≠ 0 ∧ b4 ≠ 0 ∧
      c1 ≠ 0 ∧ c2 ≠ 0 ∧ c3 ≠ 0 ∧ c4 ≠ 0 ∧ d1 ≠ 0 ∧ d2 ≠ 0 ∧ d3 ≠ 0 ∧ d4 ≠ 0 := by
  omega

set_option maxHeartbeats 6000000 in
/-- If `moves_available` holds on a nonempty board, some direction moves:
otherwise every row and column would be uniform, the board would be full, and
no adjacent pair could be equal. -/
lemma exists_moved_of_movesAvailable
    (a1 a2 a3 a4 b1 b2 b3 b4 c1 c2 c3 c4 d1 d2 d3 d4 : Nat)
    (hne' : ¬(a1 = 0 ∧ a2 = 0 ∧ a3 = 0 ∧ a4 = 0 ∧ b1 = 0 ∧ b2 = 0 ∧ b3 = 0 ∧ b4 = 0 ∧
      c1 = 0 ∧ c2 = 0 ∧ c3 = 0 ∧ c4 = 0 ∧ d1 = 0 ∧ d2 = 0 ∧ d3 = 0 ∧ d4 = 0))
    (h : movesAvailable [[a1,a2,a3,a4],[b1,b2,b3,b4],[c1,c2,c3,c4],[d1,d2,d3,d4]] = true) :
    ∃ d : Dir,
      (computeMove d [[a1,a2,a3,a4],[b1,b2,b3,b4],[c1,c2,c3,c4],[d1,d2,d3,d4]]).2.1 = true := by
  by_contra hno
  push_neg at hno
  have hl := hno Dir.left
  have hr := hno Dir.right
  have hu := hno Dir.up
  have hdn := hno Dir.down
  simp only [Bool.not_eq_true, computeMove, moveRowsMoved, reverseRows, List.map_cons,
    List.map_nil, List.reverse_cons, List.reverse_nil, List.nil_append, List.cons_append,
    transpose4_explicit, List.any_cons, List.any_nil, Bool.or_eq_false_iff,
    and_true] at hl hr hu hdn
  obtain ⟨hl1, hl2, hl3, hl4⟩ := hl
  obtain ⟨hr1, hr2, hr3, hr4⟩ := hr
  obtain ⟨hu1, hu2, hu3, hu4⟩ := hu
  obtain ⟨hd1, hd2, hd3, hd4⟩ := hdn
  obtain ⟨f00, f01, f02, f03, f10, f11, f12, f13, f20, f21, f22, f23, f30, f31, f32, f33⟩ :=
    full_of_uniform a1 a2 a3 a4 b1 b2 b3 b4 c1 c2 c3 c4 d1 d2 d3 d4
      (uniform_of_not_moved a1 a2 a3 a4 hl1 hr1) (uniform_of_not_moved b1 b2 b3 b4 hl2 hr2)
      (uniform_of_not_moved c1 c2 c3 c4 hl3 hr3) (uniform_of_not_moved d1 d2 d3 d4 hl4 hr4)
      (uniform_of_not_moved a1 b1 c1 d1 hu1 hd1) (uniform_of_not_moved a2 b2 c2 d2 hu2 hd2)
      (uniform_of_not_moved a3 b3 c3 d3 hu3 hd3) (uniform_of_not_moved a4 b4 c4 d4 hu4 hd4)
      hne'
  have n1 : ¬(a2 = a1 ∨ a3 = a2 ∨ a4 = a3) := fun hcon =>
    absurd ((lineMoved_full_iff a1 a2 a3 a4 f00 f01 f02 f03).2 hcon) (by simp [hl1])
  have n2 : ¬(b2 = b1 ∨ b3 = b2 ∨ b4 = b3) := fun hcon =>
    absurd ((lineMoved_full_iff b1 b2 b3 b4 f10 f11 f12 f13).2 hcon) (by simp [hl2])
  have n3 : ¬(c2 = c1 ∨ c3 = c2 ∨ c4 = c3) := fun hcon =>
    absurd ((lineMoved_full_iff c1 c2 c3 c4 f20 f21 f22 f23).2 hcon) (by simp [hl3])
  have n4 : ¬(d2 = d1 ∨ d3 = d2 ∨ d4 = d3) := fun hcon =>
    absurd ((lineMoved_full_iff d1 d2 d3 d4 f30 f31 f32 f33).2 hcon) (by simp [hl4])
  have n5 : ¬(b1 = a1 ∨ c1 = b1 ∨ d1 = c1) := fun hcon =>
    absurd ((lineMoved_full_iff a1 b1 c1 d1 f00 f10 f20 f30).2 hcon) (by simp [hu1])
  have n6 : ¬(b2 = a2 ∨ c2 = b2 ∨ d2 = c2) := fun hcon =>
    absurd ((lineMoved_full_iff a2 b2 c2 d2 f01 f11 f21 f31).2 hcon) (by simp [hu2])
  have n7 : ¬(b3 = a3 ∨ c3 = b3 ∨ d3 = c3) := fun hcon =>
    absurd ((lineMoved_full_iff a3 b3 c3 d3 f02 f12 f22 f32).2 hcon) (by simp [hu3])
  have n8 : ¬(b4 = a4 ∨ c4 = b4 ∨ d4 = c4) := fun hcon =>
    absurd ((lineMoved_full_iff a4 b4 c4 d4 f03 f13 f23 f33).2 hcon) (by simp [hu4])
  have e00 : a2 ≠ a1 := fun hq => n1 (Or.inl hq)
  have e01 : a3 ≠ a2 := fun hq => n1 (Or.inr (Or.inl hq))
  have e02 : a4 ≠ a3 := fun hq => n1 (Or.inr (Or.inr hq))
  have e10 : b2 ≠ b1 := fun hq => n2 (Or.inl hq)
  have e11 : b3 ≠ b2 := fun hq => n2 (Or.inr (Or.inl hq))
  have e12 : b4 ≠ b3 := fun hq => n2 (Or.inr (Or.inr hq))
  have e20 : c2 ≠ c1 := fun hq => n3 (Or.inl hq)
  have e21 : c3 ≠ c2 := fun hq => n3 (Or.inr (Or.inl hq))
  have e22 : c4 ≠ c3 := fun hq => n3 (Or.inr (Or.inr hq))
  have e30 : d2 ≠ d1 := fun hq => n4 (Or.inl hq)
  have e31 : d3 ≠ d2 := fun hq => n4 (Or.inr (Or.inl hq))
  have e32 : d4 ≠ d3 := fun hq => n4 (Or.inr (Or.inr hq))
  have g00 : b1 ≠ a1 := fun hq => n5 (Or.inl hq)
  have g10 : c1 ≠ b1 := fun hq => n5 (Or.inr (Or.inl hq))
  have g20 : d1 ≠ c1 := fun hq => n5 (Or.inr (Or.inr hq))
  have g01 : b2 ≠ a2 := fun hq => n6 (Or.inl hq)
  have g11 : c2 ≠ b2 := fun hq => n6 (Or.inr (Or.inl hq))
  have g21 : d2 ≠ c2 := fun hq => n6 (Or.inr (Or.inr hq))
  have g02 : b3 ≠ a3 := fun hq => n7 (Or.inl hq)
  have g12 : c3 ≠ b3 := fun hq => n7 (Or.inr (Or.inl hq))
  have g22 : d3 ≠ c3 := fun hq => n7 (Or.inr (Or.inr hq))
  have g03 : b4 ≠ a4 := fun hq => n8 (Or.inl hq)
  have g13 : c4 ≠ b4 := fun hq => n8 (Or.inr (Or.inl hq))
  have g23 : d4 ≠ c4 := fun hq => n8 (Or.inr (Or.inr hq))
  have hMA := movesAvailable_false_of_no_adj a1 a2 a3 a4 b1 b2 b3 b4 c1 c2 c3 c4 d1 d2 d3 d4
    f00 f01 f02 f03 f10 f11 f12 f13 f20 f21 f22 f23 f30 f31 f32 f33
    e00 e01 e02 e10 e11 e12 e20 e21 e22 e30 e31 e32 g00 g10 g20 g01 g11 g21 g02 g12 g22 g03 g13 g23
  rw [hMA] at h
  exact absurd h (by simp)

set_option maxHeartbeats 2000000 in
/-- On a board with no empty cell, a direction that moves exhibits an
adjacent equal pair, which `moves_available` detects. -/
lemma movesAvailable_of_moved_full
    (a1 a2 a3 a4 b1 b2 b3 b4 c1 c2 c3 c4 d1 d2 d3 d4 : Nat)
    (hz : a1 ≠ 0 ∧ a2 ≠ 0 ∧ a3 ≠ 0 ∧ a4 ≠ 0 ∧ b1 ≠ 0 ∧ b2 ≠ 0 ∧ b3 ≠ 0 ∧ b4 ≠ 0 ∧
      c1 ≠ 0 ∧ c2 ≠ 0 ∧ c3 ≠ 0 ∧ c4 ≠ 0 ∧ d1 ≠ 0 ∧ d2 ≠ 0 ∧ d3 ≠ 0 ∧ d4 ≠ 0)
    (d : Dir)
    (hd : (computeMove d [[a1,a2,a3,a4],[b1,b2,b3,b4],[c1,c2,c3,c4],[d1,d2,d3,d4]]).2.1 = true) :
    movesAvailable [[a1,a2,a3,a4],[b1,b2,b3,b4],[c1,c2,c3,c4],[d1,d2,d3,d4]] = true := by
  obtain ⟨z1, z2, z3, z4, z5, z6, z7, z8, z9, z10, z11, z12, z13, z14, z15, z16⟩ := hz
  cases d
  · simp only [computeMove, moveRowsMoved, reverseRows, List.map_cons, List.map_nil,
        List.reverse_cons, List.reverse_nil, List.nil_append, List.cons_append,
        transpose4_explicit, List.any_cons, List.any_nil, Bool.or_eq_true,
        Bool.false_eq_true, or_false] at hd
    rcases hd with hd | hd | hd | hd
    · have hadj := (lineMoved_full_iff a1 a2 a3 a4 z1 z2 z3 z4).1 hd
      apply movesAvailable_of_adj
      exact Or.inl (Or.inl (hadj))
    · have hadj := (lineMoved_full_iff b1 b2 b3 b4 z5 z6 z7 z8).1 hd
      apply movesAvailable_of_adj
      exact Or.inl (Or.inr (Or.inl (hadj)))
    · have hadj := (lineMoved_full_iff c1 c2 c3 c4 z9 z10 z11 z12).1 hd
      apply movesAvailable_of_adj
      exact Or.inl (Or.inr (Or.inr (Or.inl (hadj))))
    · have hadj := (lineMoved_full_iff d1 d2 d3 d4 z13 z14 z15 z16).1 hd
      apply movesAvailable_of_adj
      exact Or.inl (Or.inr (Or.inr (Or.inr (hadj))))
  · simp only [computeMove, moveRowsMoved, reverseRows, List.map_cons, List.map_nil,
        List.reverse_cons, List.reverse_nil, List.nil_append, List.cons_append,
        transpose4_explicit, List.any_cons, List.any_nil, Bool.or_eq_true,
        Bool.false_eq_true, or_false] at hd
    rcases hd with hd | hd | hd | hd
    · have hadj := (lineMoved_full_iff a4 a3 a2 a1 z4 z3 z2 z1).1 hd
      apply movesAvailable_of_adj
      rcases hadj with h | h | h
      · exact Or.inl (Or.inl (Or.inr (Or.inr h.symm)))
      · exact Or.inl (Or.inl (Or.inr (Or.inl h.symm)))
      · exact Or.inl (Or.inl (Or.inl h.symm))
    · have hadj := (lineMoved_full_iff b4 b3 b2 b1 z8 z7 z6 z5).1 hd
      apply movesAvailable_of_adj
      rcases hadj with h | h | h
      · exact Or.inl (Or.inr (Or.inl (Or.inr (Or.inr h.symm))))
      · exact Or.inl (Or.inr (Or.inl (Or.inr (Or.inl h.symm))))
      · exact Or.inl (Or.inr (Or.inl (Or.inl h.symm)))
    · have hadj := (lineMoved_full_iff c4 c3 c2 c1 z12 z11 z10 z9).1 hd
      apply movesAvailable_of_adj
      rcases hadj with h | h | h
      · exact Or.inl (Or.inr (Or.inr (Or.inl (Or.inr (Or.inr h.symm)))))
      · exact Or.inl (Or.inr (Or.inr (Or.inl (Or.inr (Or.inl h.symm)))))
      · exact Or.inl (Or.inr (Or.inr (Or.inl (Or.inl h.symm))))
    · have hadj := (lineMoved_full_iff d4 d3 d2 d1 z16 z15 z14 z13).1 hd
      apply movesAvailable_of_adj
      rcases hadj with h | h | h
      · exact Or.inl (Or.inr (Or.inr (Or.inr (Or.inr (Or.inr h.symm)))))
      · exact Or.inl (Or.inr (Or.inr (Or.inr (Or.inr (Or.inl h.symm)))))
      · exact Or.inl (Or.inr (Or.inr (Or.inr (Or.inl h.symm))))
  · simp only [computeMove, moveRowsMoved, reverseRows, List.map_cons, List.map_nil,
        List.reverse_cons, List.reverse_nil, List.nil_append, List.cons_append,
        transpose4_explicit, List.any_cons, List.any_nil, Bool.or_eq_true,
        Bool.false_eq_true, or_false] at hd
    rcases hd with hd | hd | hd | hd
    · have hadj := (lineMoved_full_iff a1 b1 c1 d1 z1 z5 z9 z13).1 hd
      apply movesAvailable_of_adj
      exact Or.inr (Or.inl (hadj))
    · have hadj := (lineMoved_full_iff a2 b2 c2 d2 z2 z6 z10 z14).1 hd
      apply movesAvailable_of_adj
      exact Or.inr (Or.inr (Or.inl (hadj)))
    · have hadj := (lineMoved_full_iff a3 b3 c3 d3 z3 z7 z11 z15).1 hd
      apply movesAvailable_of_adj
      exact Or.inr (Or.inr (Or.inr (Or.inl (hadj))))
    · have hadj := (lineMoved_full_iff a4 b4 c4 d4 z4 z8 z12 z16).1 hd
      apply movesAvailable_of_adj
      exact Or.inr (Or.inr (Or.inr (Or.inr (hadj))))
  · simp only [computeMove, moveRowsMoved, reverseRows, List.map_cons, List.map_nil,
        List.reverse_cons, List.reverse_nil, List.nil_append, List.cons_append,
        transpose4_explicit, List.any_cons, List.any_nil, Bool.or_eq_true,
        Bool.false_eq_true, or_false] at hd
    rcases hd with hd | hd | hd | hd
    · have hadj := (lineMoved_full_iff d1 c1 b1 a1 z13 z9 z5 z1).1 hd
      apply movesAvailable_of_adj
      rcases hadj with h | h | h
      · exact Or.inr (Or.inl (Or.inr (Or.inr h.symm)))
      · exact Or.inr (Or.inl (Or.inr (Or.inl h.symm)))
      · exact Or.inr (Or.inl (Or.inl h.symm))
    · have hadj := (lineMoved_full_iff d2 c2 b2 a2 z14 z10 z6 z2).1 hd
      apply movesAvailable_of_adj
      rcases hadj with h | h | h
      · exact Or.inr (Or.inr (Or.inl (Or.inr (Or.inr h.symm))))
      · exact Or.inr (Or.inr (Or.inl (Or.inr (Or.inl h.symm))))
      · exact Or.inr (Or.inr (Or.inl (Or.inl h.symm)))
    · have hadj := (lineMoved_full_iff d3 c3 b3 a3 z15 z11 z7 z3).1 hd
      apply movesAvailable_of_adj
      rcases hadj with h | h | h
      · exact Or.inr (Or.inr (Or.inr (Or.inl (Or.inr (Or.inr h.symm)))))
      · exact Or.inr (Or.inr (Or.inr (Or.inl (Or.inr (Or.inl h.symm)))))
      · exact Or.inr (Or.inr (Or.inr (Or.inl (Or.inl h.symm))))
    · have hadj := (lineMoved_full_iff d4 c4 b4 a4 z16 z12 z8 z4).1 hd
      apply movesAvailable_of_adj
      rcases hadj with h | h | h
      · exact Or.inr (Or.inr (Or.inr (Or.inr (Or.inr (Or.inr h.symm)))))
      · exact Or.inr (Or.inr (Or.inr (Or.inr (Or.inr (Or.inl h.symm)))))
      · exact Or.inr (Or.inr (Or.inr (Or.inr (Or.inl h.symm))))

/-- C4 (amended): for every board with at least one tile, `moves_available`
returns true if and only if at least one of the 4 directions, attempted on a
copy of the board, would yield `moved = true`. (The completely empty board is
the sole exception: `moves_available` is true there while every direction is
a no-op.) -/
theorem moves_available_iff_some_direction_moves
    (a1 a2 a3 a4 b1 b2 b3 b4 c1 c2 c3 c4 d1 d2 d3 d4 : Nat)
    (hne : [[a1,a2,a3,a4],[b1,b2,b3,b4],[c1,c2,c3,c4],[d1,d2,d3,d4]] ≠ emptyBoard) :
    movesAvailable [[a1,a2,a3,a4],[b1,b2,b3,b4],[c1,c2,c3,c4],[d1,d2,d3,d4]] = true ↔
      ∃ d : Dir,
        (computeMove d [[a1,a2,a3,a4],[b1,b2,b3,b4],[c1,c2,c3,c4],[d1,d2,d3,d4]]).2.1 = true := by
  have hne' : ¬(a1 = 0 ∧ a2 = 0 ∧ a3 = 0 ∧ a4 = 0 ∧ b1 = 0 ∧ b2 = 0 ∧ b3 = 0 ∧ b4 = 0 ∧
      c1 = 0 ∧ c2 = 0 ∧ c3 = 0 ∧ c4 = 0 ∧ d1 = 0 ∧ d2 = 0 ∧ d3 = 0 ∧ d4 = 0) := by
    intro hall
    obtain ⟨rfl, rfl, rfl, rfl, rfl, rfl, rfl, rfl, rfl, rfl, rfl, rfl, rfl, rfl, rfl, rfl⟩ :=
      hall
    exact hne rfl
  constructor
  · exact exists_moved_of_movesAvailable a1 a2 a3 a4 b1 b2 b3 b4 c1 c2 c3 c4 d1 d2 d3 d4 hne'
  · rintro ⟨d, hd⟩
    by_cases hz : a1 = 0 ∨ a2 = 0 ∨ a3 = 0 ∨ a4 = 0 ∨ b1 = 0 ∨ b2 = 0 ∨ b3 = 0 ∨ b4 = 0 ∨
        c1 = 0 ∨ c2 = 0 ∨ c3 = 0 ∨ c4 = 0 ∨ d1 = 0 ∨ d2 = 0 ∨ d3 = 0 ∨ d4 = 0
    · exact movesAvailable_of_zero a1 a2 a3 a4 b1 b2 b3 b4 c1 c2 c3 c4 d1 d2 d3 d4 hz
    · push_neg at hz
      exact movesAvailable_of_moved_full a1 a2 a3 a4 b1 b2 b3 b4 c1 c2 c3 c4 d1 d2 d3 d4 hz d hd

/-- Witness for the amended C4 at a full board of equal tiles: a merge is
possible, so both sides of the equivalence are true. -/
theorem moves_available_iff_some_direction_moves_witness :
    movesAvailable [[2,2,2,2],[2,2,2,2],[2,2,2,2],[2,2,2,2]] = true ↔
      ∃ d : Dir,
        (computeMove d [[2,2,2,2],[2,2,2,2],[2,2,2,2],[2,2,2,2]]).2.1 = true :=
  moves_available_iff_some_direction_moves 2 2 2 2 2 2 2 2 2 2 2 2 2 2 2 2 (by decide)

end Game2048
